import Mathlib

/-!
Verification development for the Mutual-Fund-Chatbot retrieval and
fact-extraction pipeline.  The Python sources (rag_retriever.py, reranker.py,
rag_qa_llm.py, clean_chunks.py, conflict_detector.py, constants.py) are
shallowly embedded: pure string manipulation is modelled on `String` and
`List Char`, floating-point scores are modelled as exact rationals, the
regex-heavy helpers that the claims do not depend on are abstracted as oracle
function parameters, and the external collaborators (FAISS search, the
embedding model, the cross-encoder, file lookups) are inputs of the model.
-/

namespace MFC

/-! ### String utilities mirroring the Python string operations -/
/-- Lower-casing of a string, mirroring `str.lower` on ASCII text. -/
def toLowerS (s : String) : String := String.mk (s.toList.map Char.toLower)

/-- Upper-casing of a string, mirroring `str.upper` on ASCII text. -/
def toUpperS (s : String) : String := String.mk (s.toList.map Char.toUpper)

/-- Substring test on character lists: `csContains needle hay` mirrors the
Python expression `needle in hay`. -/
def csContains (needle : List Char) : List Char → Bool
  | [] => needle.isEmpty
  | c :: rest => needle.isPrefixOf (c :: rest) || csContains needle rest

/-- Substring test on strings: `strContains hay needle` mirrors the Python
expression `needle in hay`. -/
def strContains (hay needle : String) : Bool :=
  csContains needle.toList hay.toList

/-- Fuel-bounded count of non-overlapping occurrences, mirroring `str.count`
for a non-empty needle (left-to-right scan, skipping the needle length after
each hit). -/
def countOccurAux (needle : List Char) : List Char → Nat → Nat
  | _, 0 => 0
  | hay, Nat.succ fuel =>
      if needle.isPrefixOf hay then
        1 + countOccurAux needle (hay.drop needle.length) fuel
      else
        match hay with
        | [] => 0
        | _ :: t => countOccurAux needle t fuel

/-- `countOccur hay needle` mirrors `hay.count(needle)` for non-empty
needles. -/
def countOccur (hay needle : String) : Nat :=
  countOccurAux needle.toList hay.toList hay.toList.length

/-- Whitespace test matching the character class used by the regexes. -/
def isWs (c : Char) : Bool := c.isWhitespace

/-- Strip leading and trailing whitespace, mirroring `str.strip`. -/
def trimS (s : String) : String :=
  String.mk (((s.toList.dropWhile isWs).reverse.dropWhile isWs).reverse)

/-- Collapse every maximal whitespace run to a single space, mirroring the
substitution `re.sub(r"\s+", " ", s)`. -/
def collapseWs : List Char → List Char
  | [] => []
  | c :: rest =>
      if isWs c then
        ' ' :: collapseWs (rest.dropWhile isWs)
      else c :: collapseWs rest
termination_by cs => cs.length
decreasing_by
  all_goals simp only [List.length_cons]
  · exact Nat.lt_succ_of_le (List.dropWhile_suffix _).sublist.length_le
  · exact Nat.lt_succ_self _

/-- The value clean-up applied in rag_qa_llm.py:
`re.sub(r"\s+", " ", value).strip()` after an initial `strip`. -/
def cleanValue (s : String) : String :=
  trimS (String.mk (collapseWs (trimS s).toList))

/-- First 100 characters of a chunk text, the deduplication fingerprint used
by `RAGRetriever.retrieve`. -/
def fingerprint (s : String) : List Char := s.toList.take 100

/-- Does the text contain a digit, mirroring `any(char.isdigit() for char in t)`. -/
def hasDigit (cs : List Char) : Bool := cs.any Char.isDigit

/-- Does the text contain a digit, a dot and a digit in a row; this is exactly
when the regex `\d+\.\d+` has a match. -/
def hasDecimalNumber : List Char → Bool
  | a :: b :: c :: rest =>
      (a.isDigit && b = '.' && c.isDigit) || hasDecimalNumber (b :: c :: rest)
  | _ => false

/-- Numeric value of a digit string, used when the Python code applies `int`
or `float` to a captured group of digits. -/
def natOfDigits (ds : List Char) : Nat :=
  ds.foldl (fun n c => n * 10 + (c.toNat - 48)) 0

/-- Rational value of a captured decimal group such as `1.00`, `3` or `1.`,
mirroring the Python conversion `float(group)`. -/
def ratOfDecimal (ds : List Char) : ℚ :=
  let intPart := ds.takeWhile (fun c => c ≠ '.')
  let rest := ds.dropWhile (fun c => c ≠ '.')
  match rest with
  | _ :: frac => (natOfDigits intPart : ℚ) + (natOfDigits frac : ℚ) / ((10 : ℚ) ^ frac.length)
  | [] => (natOfDigits intPart : ℚ)

/-! ### A stable insertion sort mirroring the Python `list.sort`

The Python sort is stable; `stableSort r` keeps an element before every
later element `y` for which `r x y` holds, so taking `r` to be the non-strict
comparison in the wanted direction reproduces the stable order exactly. -/
/-- Insert `x` in front of the first element `y` with `r x y`. -/
def insertBefore {α : Type} (r : α → α → Bool) (x : α) : List α → List α
  | [] => [x]
  | y :: ys => if r x y then x :: y :: ys else y :: insertBefore r x ys

/-- Stable insertion sort: earlier elements are inserted last and land before
later elements that compare equal. -/
def stableSort {α : Type} (r : α → α → Bool) : List α → List α
  | [] => []
  | x :: xs => insertBefore r x (stableSort r xs)

/-! ### Constants from constants.py -/
/-- Association-list lookup mirroring `dict.get` with exact string keys. -/
def lookupStr {α : Type} (m : List (String × α)) (k : String) : Option α :=
  (m.find? (fun p => p.1 == k)).map Prod.snd

/-- SOURCE_AUTHORITY from constants.py (insertion order preserved, as the
Python dict iteration order matters for the substring matching). -/
def SOURCE_AUTHORITY : List (String × ℚ) :=
  [("sid_pdf", 1), ("kim_pdf", 0.9), ("factsheet_consolidated", 0.8),
   ("scheme_overview", 0.7), ("amfi", 0.9), ("sebi", 0.95), ("groww", 0.6)]

/-- SCHEME_TAG_MAP from constants.py. -/
def SCHEME_TAG_MAP : List (String × String) :=
  [("largecap", "LARGE_CAP"), ("flexicap", "FLEXI_CAP"),
   ("elss", "ELSS"), ("hybrid", "HYBRID")]

/-- FIELD_FILTER_THRESHOLD from constants.py. -/
def FIELD_FILTER_THRESHOLD : Nat := 3

/-! ### RAGRetriever (rag_retriever.py)

The FAISS index, the sentence-embedding model, the query classifier and the
compiled regexes of the type-boost heuristics are external collaborators: the
model takes them as inputs (`search`, `queryType`, `boostKeywords`, the
`RegexOracles` predicates).  Everything else — hierarchical candidate
narrowing, filtering with fallback, fingerprint deduplication, hybrid
scoring, sorting, truncation, overview injection and the hand-off to the
re-ranker — is embedded concretely. -/
/-- One entry of the metadata array loaded next to the FAISS index. -/
structure RMeta where
  text : String
  source_id : String
  scheme_tag : String
  field : String
  authority : String
  snippet_keyword : String
  source_type : String
  last_fetched_date : String
deriving DecidableEq

def dummyMeta : RMeta := ⟨"", "", "", "", "", "", "", ""⟩

/-- A result dictionary of the retrieval pipeline.  Python result dicts carry
varying key sets, so keys that are present only on some paths are modelled as
`Option` fields (`none` means the key is absent). -/
structure RResult where
  text : String
  chunk_text : String
  source_id : String
  source_url : String
  authority : String
  scheme_tag : String
  field : String
  source_type : String
  last_fetched_date : String
  snippet_keyword : String
  similarity : ℚ
  relevance_score : Option ℚ
  keyword_score : Option ℚ
  index : Option Nat
  rerank_score : Option ℚ
  final_score : Option ℚ
  last_updated : Option String
deriving DecidableEq

/-- The four compiled regexes used by the type-boost heuristics of
`RAGRetriever.retrieve`, abstracted as predicates on the chunk text. -/
structure RegexOracles where
  entityRole : String → Bool
  personName : String → Bool
  metricNum : String → Bool
  listStruct : String → Bool

/-- The retriever state and its external collaborators. -/
structure RetrieverEnv where
  metadata : List RMeta
  urlMap : String → String
  search : Nat → List (ℚ × Nat)
  queryType : String
  boostKeywords : List String
  ros : RegexOracles
  rerankerLoaded : Bool
  crossScore : String → String → ℚ

/-- RAGRetriever._identify_scheme_from_query. -/
def identifySchemeFromQuery (query : String) : Option String :=
  let ql := toLowerS query
  [("largecap", ["large cap", "largecap", "large-cap"]),
   ("flexicap", ["flexi cap", "flexicap", "flexi-cap"]),
   ("elss", ["elss", "tax saver", "tax-saver", "equity linked saving"]),
   ("hybrid", ["hybrid", "hybrid equity"])].findSome?
    (fun p => if p.2.any (fun kw => strContains ql kw) then some p.1 else none)

/-- RAGRetriever._identify_field_from_query. -/
def identifyFieldFromQuery (query : String) : Option String :=
  let ql := toLowerS query
  [("exit_load", ["exit load", "redemption charge", "exit charge"]),
   ("expense_ratio", ["expense ratio", "ter", "total expense ratio"]),
   ("minimum_sip", ["minimum sip", "min sip", "minimum investment"]),
   ("lock_in", ["lock-in", "lock in", "lockin"]),
   ("benchmark", ["benchmark", "benchmark index"]),
   ("riskometer", ["riskometer", "risk-o-meter", "risk meter"])].findSome?
    (fun p => if p.2.any (fun kw => strContains ql kw) then some p.1 else none)

/-- RAGRetriever._calculate_keyword_score: for each keyword with a positive
occurrence count, add `count * (1.0 / (1.0 + count * 0.5))`. -/
def calculateKeywordScore (text : String) (keywords : List String) : ℚ :=
  keywords.foldl
    (fun score keyword =>
      let count := countOccur (toLowerS text) (toLowerS keyword)
      if count > 0 then score + (count : ℚ) * (1 / (1 + (count : ℚ) * 0.5)) else score)
    0

/-- RAGRetriever._get_source_authority_score: the first SOURCE_AUTHORITY
entry whose key is a substring of the lower-cased source id, default 0.5. -/
def getSourceAuthorityScore (source_id : String) : ℚ :=
  match SOURCE_AUTHORITY.find? (fun p => strContains (toLowerS source_id) p.1) with
  | some p => p.2
  | none => 0.5

/-- The query-type-specific boost block of RAGRetriever.retrieve. -/
def typeBoost (ros : RegexOracles) (queryType : String) (text source_id : String) : ℚ :=
  if queryType = "entity" then
    (if ros.entityRole text then 0.2 else 0) + (if ros.personName text then 0.15 else 0)
  else if queryType = "metric" then
    (if ros.metricNum text then 0.2 else 0) +
      (if strContains source_id "overview" then 0.1 else 0)
  else if queryType = "list" then
    (if ros.listStruct text then 0.15 else 0) +
      (if strContains (toLowerS text) "portfolio" || strContains (toLowerS text) "holdings"
       then 0.1 else 0)
  else 0

/-- scheme_indices built by RAGRetriever._build_index_maps, as the set of
indices whose metadata carries the given (non-empty) scheme tag. -/
def schemeIndexSet (md : List RMeta) (t : String) : Finset Nat :=
  (Finset.range md.length).filter (fun i => (md.getD i dummyMeta).scheme_tag = t)

/-- field_indices built by RAGRetriever._build_index_maps. -/
def fieldIndexSet (md : List RMeta) (t f : String) : Finset Nat :=
  (Finset.range md.length).filter
    (fun i => (md.getD i dummyMeta).scheme_tag = t ∧ (md.getD i dummyMeta).field = f)

/-- SCHEME_TAG_MAP.get(scheme_tag, scheme_tag). -/
def mappedSchemeTag (s : String) : String := (lookupStr SCHEME_TAG_MAP s).getD s

/-- Hierarchical steps 1 and 2 of RAGRetriever.retrieve: the candidate index
set (`none` when hierarchical filtering is off). -/
def retrieveCandidate (env : RetrieverEnv) (query : String) (use_hierarchical : Bool) :
    Option (Finset Nat) :=
  if use_hierarchical then
    let scheme_tag := identifySchemeFromQuery query
    let base :=
      match scheme_tag with
      | some s =>
          let t := mappedSchemeTag s
          if (schemeIndexSet env.metadata t).Nonempty then schemeIndexSet env.metadata t
          else Finset.range env.metadata.length
      | none => Finset.range env.metadata.length
    if env.queryType = "metric" ∧ scheme_tag.isSome = true then
      match identifyFieldFromQuery query with
      | some f =>
          let t := mappedSchemeTag (scheme_tag.getD "")
          let fs := fieldIndexSet env.metadata t f
          if fs.Nonempty then
            (if FIELD_FILTER_THRESHOLD ≤ fs.card then some (base ∩ fs) else some base)
          else
            let afs := fieldIndexSet env.metadata "ALL" f
            if afs.Nonempty then some (base ∪ afs) else some base
      | none => some base
    else some base
  else none

/-- The search breadth computation of RAGRetriever.retrieve. -/
def retrieveSearchK (env : RetrieverEnv) (query : String) (top_k : Nat)
    (use_hierarchical : Bool) : Nat :=
  let base :=
    if env.queryType = "entity" then min (top_k * 5) 40
    else if env.queryType = "list" then min (top_k * 4) 35
    else if env.queryType = "metric" then min (top_k * 3) 30
    else min (top_k * 3) 25
  match retrieveCandidate env query use_hierarchical with
  | some c => if use_hierarchical ∧ c.Nonempty then min (base * 2) env.metadata.length else base
  | none => base

/-- One scored entry of the hybrid-scoring loop of RAGRetriever.retrieve. -/
def mkEntry (env : RetrieverEnv) (dist : ℚ) (idx : Nat) : RResult :=
  let meta := env.metadata.getD idx dummyMeta
  let vector_score := dist
  let keyword_score := calculateKeywordScore meta.text env.boostKeywords
  let source_score := getSourceAuthorityScore meta.source_id
  let type_boost := typeBoost env.ros env.queryType meta.text meta.source_id
  let relevance_score :=
    vector_score * 0.5 + min keyword_score 2 * 0.15 + source_score * 0.15 + type_boost * 0.2
  { text := meta.text, chunk_text := meta.text, source_id := meta.source_id,
    source_url := env.urlMap meta.source_id, authority := meta.authority,
    scheme_tag := meta.scheme_tag, field := meta.field,
    source_type := meta.source_type, last_fetched_date := meta.last_fetched_date,
    snippet_keyword := meta.snippet_keyword,
    similarity := vector_score, relevance_score := some relevance_score,
    keyword_score := some keyword_score, index := some idx,
    rerank_score := none, final_score := none, last_updated := none }

/-- The fingerprint-deduplicating scoring loop of RAGRetriever.retrieve.
Returns the scored entries together with the final seen_texts and
seen_indices sets. -/
def scoreLoop (env : RetrieverEnv) :
    List (ℚ × Nat) → Finset (List Char) → Finset Nat →
      List RResult × Finset (List Char) × Finset Nat
  | [], seenT, seenI => ([], seenT, seenI)
  | (dist, idx) :: rest, seenT, seenI =>
      let meta := env.metadata.getD idx dummyMeta
      let fp := fingerprint meta.text
      if fp ∈ seenT then scoreLoop env rest seenT seenI
      else
        let out := scoreLoop env rest (insert fp seenT) (insert idx seenI)
        (mkEntry env dist idx :: out.1, out.2)

/-- The rebuild of the result dictionaries after truncation: the
keyword_score and index keys are dropped. -/
def stripForOutput (r : RResult) : RResult := {r with keyword_score := none, index := none}

/-- The fund-name identification of the overview-injection block. -/
def fundNameFromQuery (ql : String) : Option String :=
  if strContains ql "large cap" then some "largecap"
  else if strContains ql "flexi cap" || strContains ql "flexicap" then some "flexicap"
  else if strContains ql "elss" then some "elss"
  else if strContains ql "hybrid" then some "hybrid"
  else none

/-- The per-chunk test of the overview-injection block (only the expense/TER
branch exists in the source). -/
def overviewChunkOk (ql : String) (meta : RMeta) : Bool :=
  if strContains ql "expense" || strContains ql "ter" then
    let ctl := toLowerS meta.text
    let has_ter_pattern :=
      (strContains ctl "total expense ratio" || strContains ctl "ter") && hasDigit meta.text.toList
    let has_expense_value :=
      strContains ctl "expense" && hasDigit (meta.text.toList.take 300)
    (has_ter_pattern || has_expense_value) &&
      (hasDecimalNumber (meta.text.toList.take 300) || strContains ctl "total expense ratio")
  else false

/-- The result dictionary built for a manually injected overview chunk: its
similarity is fixed at 0.5 and it has no relevance_score key. -/
def overviewEntry (env : RetrieverEnv) (meta : RMeta) : RResult :=
  { text := meta.text, chunk_text := meta.text, source_id := meta.source_id,
    source_url := env.urlMap meta.source_id, authority := meta.authority,
    scheme_tag := meta.scheme_tag, field := meta.field, source_type := meta.source_type,
    last_fetched_date := meta.last_fetched_date, snippet_keyword := meta.snippet_keyword,
    similarity := 0.5, relevance_score := none, keyword_score := none, index := none,
    rerank_score := none, final_score := none, last_updated := none }

/-- The enumerate-scan of the overview-injection block: the first metadata
entry not yet seen, with the expected overview source id, passing the
text checks. -/
def findOverviewChunk (env : RetrieverEnv) (ql : String) (ov : String)
    (seenI : Finset Nat) : Option RMeta :=
  (List.range env.metadata.length).findSome? (fun idx =>
    let meta := env.metadata.getD idx dummyMeta
    if idx ∉ seenI ∧ meta.source_id = ov ∧ overviewChunkOk ql meta = true
    then some meta else none)

/-! ### Reranker (reranker.py) -/
/-- The authority_map of Reranker.rerank_with_metadata (exact source_type
lookup, default 1.0). -/
def authorityMult (source_type : String) : ℚ :=
  (lookupStr
    [("sid_pdf", (1.2 : ℚ)), ("kim_pdf", 1.1), ("factsheet_consolidated", 1.0),
     ("scheme_overview", 0.9), ("amfi", 1.1), ("sebi", 1.15)] source_type).getD 1

/-- Reranker.rerank.  When the cross-encoder model is not loaded the input is
returned truncated to top_k; otherwise every chunk is scored by the
cross-encoder, sorted descending (stably), truncated, and given a
rerank_score key. -/
def rerank (env : RetrieverEnv) (query : String) (chunks : List RResult)
    (top_k : Nat) : List RResult :=
  if chunks.isEmpty then []
  else if env.rerankerLoaded = false then chunks.take top_k
  else
    let scored := chunks.map (fun c => (c, env.crossScore query c.text))
    let sorted := stableSort (fun a b => decide (b.2 ≤ a.2)) scored
    (sorted.take top_k).map (fun p => {p.1 with rerank_score := some p.2})

/-- The metadata-boost applied per chunk by Reranker.rerank_with_metadata:
the rerank_score (0.0 when the key is absent) times the authority multiplier
and, when a non-empty last_updated value is present, times 1.05. -/
def boostChunk (boost_authority boost_recent : Bool) (c : RResult) : RResult :=
  let base := c.rerank_score.getD 0
  let base1 := if boost_authority then base * authorityMult c.source_type else base
  let base2 := if boost_recent ∧ c.last_updated.getD "" ≠ "" then base1 * 1.05 else base1
  {c with final_score := some base2}

/-- Reranker.rerank_with_metadata. -/
def rerankWithMetadata (env : RetrieverEnv) (query : String) (chunks : List RResult)
    (top_k : Nat) (boost_authority boost_recent : Bool) : List RResult :=
  if chunks.isEmpty then []
  else
    if boost_authority = false ∧ boost_recent = false then
      (rerank env query chunks chunks.length).take top_k
    else
      (stableSort (fun a b => decide (b.final_score.getD 0 ≤ a.final_score.getD 0))
        ((rerank env query chunks chunks.length).map (boostChunk boost_authority boost_recent))).take
        top_k

/-- The search-then-filter stage of RAGRetriever.retrieve: vector-search
hits, hierarchically filtered to the candidate set with fallback to the
unfiltered hits when filtering would empty them, re-sorted descending by
distance and truncated to the search breadth. -/
def retrieveHits1 (env : RetrieverEnv) (query : String) (top_k : Nat)
    (use_hierarchical : Bool) : List (ℚ × Nat) :=
  let search_k := retrieveSearchK env query top_k use_hierarchical
  let hits := env.search search_k
  match retrieveCandidate env query use_hierarchical with
  | some c =>
      if use_hierarchical ∧ c.Nonempty ∧ c.card < env.metadata.length then
        let filtered := hits.filter (fun p => p.2 ∈ c)
        if filtered.isEmpty then hits
        else (stableSort (fun a b => decide (b.1 ≤ a.1)) filtered).take search_k
      else hits
  | none => hits

/-- The deduplicating scoring stage of RAGRetriever.retrieve. -/
def retrieveScored (env : RetrieverEnv) (query : String) (top_k : Nat)
    (use_hierarchical : Bool) : List RResult × Finset (List Char) × Finset Nat :=
  scoreLoop env (retrieveHits1 env query top_k use_hierarchical) ∅ ∅

/-- The sort-truncate-rebuild stage plus the overview-injection block of
RAGRetriever.retrieve. -/
def retrieveResults1 (env : RetrieverEnv) (query : String) (top_k : Nat)
    (include_overview use_hierarchical use_reranking : Bool) : List RResult :=
  let ql := toLowerS query
  let scored := retrieveScored env query top_k use_hierarchical
  let sortedScored :=
    stableSort
      (fun a b => decide (b.relevance_score.getD 0 ≤ a.relevance_score.getD 0)) scored.1
  let candidate_count := if use_reranking ∧ env.rerankerLoaded = true then top_k * 2 else top_k
  let results0 := (sortedScored.take candidate_count).map stripForOutput
  if include_overview ∧
      (["expense ratio", "ter", "exit load", "sip", "lock-in"].any
        (fun t => strContains ql t)) = true then
    match fundNameFromQuery ql with
    | some fn =>
        match findOverviewChunk env ql ("amc_" ++ fn ++ "_overview") scored.2.2 with
        | some meta => results0 ++ [overviewEntry env meta]
        | none => results0
    | none => results0
  else results0

/-- RAGRetriever.retrieve, composed from the stage functions above. -/
def retrieve (env : RetrieverEnv) (query : String) (top_k : Nat)
    (include_overview use_hierarchical use_reranking : Bool) : List RResult :=
  if (env.search (retrieveSearchK env query top_k use_hierarchical)).isEmpty then []
  else
    let results1 :=
      retrieveResults1 env query top_k include_overview use_hierarchical use_reranking
    if use_reranking ∧ env.rerankerLoaded = true ∧ top_k < results1.length then
      rerankWithMetadata env query (results1.take (top_k * 2)) top_k true true
    else results1.take top_k

/-! ### Structural lemmas about the retrieval stages -/
/-- The claim-side form of the keyword score: the sum over expanded keywords
of `count / (1 + 0.5 * count)`. -/
def keywordScoreSpec (text : String) (keywords : List String) : ℚ :=
  (keywords.map (fun keyword =>
    let c := countOccur (toLowerS text) (toLowerS keyword)
    (c : ℚ) / (1 + 0.5 * (c : ℚ)))).sum

/-! ### Concrete instances for witnesses and counterexamples (retrieval) -/
/-- Trivial regex oracles for concrete instances. -/
def noRos : RegexOracles := ⟨fun _ => false, fun _ => false, fun _ => false, fun _ => false⟩

def metaC1 : RMeta :=
  { text := "ter is 1.2% here", source_id := "amc_x_sid", scheme_tag := "ELSS",
    field := "", authority := "", snippet_keyword := "", source_type := "sid_pdf",
    last_fetched_date := "" }

def envC1w : RetrieverEnv :=
  { metadata := [metaC1], urlMap := fun _ => "", search := fun _ => [(0.9, 0)],
    queryType := "general", boostKeywords := ["ter"], ros := noRos,
    rerankerLoaded := false, crossScore := fun _ _ => 0 }

def metaHyb : RMeta :=
  { text := "Hybrid fund overview text", source_id := "src0", scheme_tag := "HYBRID",
    field := "", authority := "", snippet_keyword := "", source_type := "",
    last_fetched_date := "" }

def envC2cex : RetrieverEnv :=
  { metadata := [metaHyb], urlMap := fun _ => "", search := fun _ => [(0.9, 0)],
    queryType := "general", boostKeywords := [], ros := noRos,
    rerankerLoaded := false, crossScore := fun _ _ => 0 }

def metaElss : RMeta :=
  { text := "Elss fund details", source_id := "amc_elss_sid", scheme_tag := "ELSS",
    field := "", authority := "", snippet_keyword := "", source_type := "sid_pdf",
    last_fetched_date := "" }

def envC2w : RetrieverEnv :=
  { metadata := [metaElss], urlMap := fun _ => "", search := fun _ => [(0.9, 0)],
    queryType := "general", boostKeywords := [], ros := noRos,
    rerankerLoaded := false, crossScore := fun _ _ => 0 }

def blankResult : RResult :=
  { text := "chunk text one", chunk_text := "chunk text one", source_id := "s1",
    source_url := "", authority := "", scheme_tag := "", field := "",
    source_type := "sid_pdf", last_fetched_date := "", snippet_keyword := "",
    similarity := 0.8, relevance_score := some 0.6, keyword_score := none,
    index := none, rerank_score := none, final_score := none, last_updated := none }

def blankResult2 : RResult :=
  { text := "chunk text two", chunk_text := "chunk text two", source_id := "s2",
    source_url := "", authority := "", scheme_tag := "", field := "",
    source_type := "scheme_overview", last_fetched_date := "", snippet_keyword := "",
    similarity := 0.7, relevance_score := some 0.5, keyword_score := none,
    index := none, rerank_score := none, final_score := none, last_updated := none }

def envC9 : RetrieverEnv :=
  { metadata := [], urlMap := fun _ => "", search := fun _ => [],
    queryType := "general", boostKeywords := [], ros := noRos,
    rerankerLoaded := false, crossScore := fun _ _ => 0 }

def textC10 : String := "Total Expense Ratio (TER): 1.25% for this fund."

def metaC10a : RMeta :=
  { text := textC10, source_id := "amc_elss_sid", scheme_tag := "ELSS",
    field := "", authority := "", snippet_keyword := "", source_type := "sid_pdf",
    last_fetched_date := "" }

def metaC10b : RMeta :=
  { text := textC10, source_id := "amc_elss_overview", scheme_tag := "ELSS",
    field := "", authority := "", snippet_keyword := "", source_type := "scheme_overview",
    last_fetched_date := "" }

def envC10 : RetrieverEnv :=
  { metadata := [metaC10a, metaC10b], urlMap := fun _ => "",
    search := fun _ => [(0.9, 0)], queryType := "general", boostKeywords := [],
    ros := noRos, rerankerLoaded := false, crossScore := fun _ _ => 0 }

/-! ### Strict metric extractor (rag_qa_llm.py)

The per-field numeric regex table (`_extract_numeric_pattern`), the metric
value normalizer (`_normalize_metric_value`), the date re-formatting, the two
exit-load year regexes, the chunks_clean.jsonl lookup and the source-metadata
lookups are abstracted as oracles in `QAOracles`; the value-capture patterns
of the direct field-chunk lookup (`:\s*([^.]*?)(?:\.|Source)` and its two
companions) are embedded concretely, as are the authority priorities, the
candidate filtering, the stable authority sort and the confidence rules. -/
/-- A chunk dictionary as consumed by `_extract_metric_strict`; `Option`
fields model keys that may be absent. -/
structure MChunk where
  text : String
  chunk_text : String
  source_id : String
  source_type : String
  source_url : String
  scheme_tag : String
  field : String
  last_fetched_date : Option String
  last_updated : Option String
deriving DecidableEq

/-- The dictionary returned by `_extract_numeric_pattern`. -/
structure NumMatch where
  value : String
  excerpt : String
  matchStart : Nat
  matchEnd : Nat
deriving DecidableEq

/-- The result dictionary of `_extract_metric_strict`. -/
structure MetricResult where
  answer : String
  source_type : String
  source_id : String
  source_url : String
  excerpt : String
  last_updated : String
  confidence : String
deriving DecidableEq

/-- _get_source_authority_priority: lower number = higher priority,
default 5 for unknown source types. -/
def getSourceAuthorityPriority (source_type : String) : Nat :=
  if source_type = "sid_pdf" then 1
  else if source_type = "kim_pdf" then 2
  else if source_type = "factsheet_consolidated" then 3
  else if source_type = "scheme_overview" then 4
  else 5

set_option linter.unusedVariables false in
/-- _calculate_confidence.  The `normalized` flag is accepted but, as in the
source, never consulted. -/
def calculateConfidence (source_type : String) (numeric_match normalized : Bool) : String :=
  if numeric_match = false then "LOW"
  else if source_type = "sid_pdf" ∨ source_type = "kim_pdf" then "HIGH"
  else if source_type = "factsheet_consolidated" ∨ source_type = "scheme_overview" then "MEDIUM"
  else "LOW"

/-- Numeric rank of a confidence label, for stating monotonicity. -/
def confidenceRank (c : String) : Nat :=
  if c = "HIGH" then 2 else if c = "MEDIUM" then 1 else 0

/-- _identify_field_from_query of rag_qa_llm.py (adds min_lumpsum relative to
the retriever version). -/
def identifyFieldFromQueryQA (query : String) : Option String :=
  let ql := toLowerS query
  [("exit_load", ["exit load", "redemption charge", "exit charge"]),
   ("expense_ratio", ["expense ratio", "ter", "total expense ratio"]),
   ("minimum_sip", ["minimum sip", "min sip", "minimum investment"]),
   ("min_lumpsum", ["minimum lumpsum", "min lumpsum", "minimum application", "min application"]),
   ("lock_in", ["lock-in", "lock in", "lockin"]),
   ("benchmark", ["benchmark", "benchmark index"]),
   ("riskometer", ["riskometer", "risk-o-meter", "risk meter"])].findSome?
    (fun p => if p.2.any (fun kw => strContains ql kw) then some p.1 else none)

/-- Case-insensitive prefix test against a lower-case needle. -/
def ciIsPrefix (needle : String) (cs : List Char) : Bool :=
  needle.toList.isPrefixOf (cs.map Char.toLower)

/-- The lazy group of `([^.]*?)(?:\.|Source)` with IGNORECASE: the characters
up to the first terminator, which is a dot or a case-insensitive occurrence
of `Source`; `none` when no terminator exists. -/
def takeToTerm1 : List Char → Option (List Char)
  | [] => none
  | c :: rest =>
      if c = '.' then some []
      else if ciIsPrefix "source" (c :: rest) then some []
      else (takeToTerm1 rest).map (fun g => c :: g)

/-- The first pattern `:\s*([^.]*?)(?:\.|Source)`: at the first colon after
which a terminator exists, the group runs from the end of the greedy
whitespace to the first terminator. -/
def colonMatch1 : List Char → Option (List Char)
  | [] => none
  | c :: rest =>
      if c = ':' then
        match takeToTerm1 (rest.dropWhile isWs) with
        | some g => some g
        | none => colonMatch1 rest
      else colonMatch1 rest

/-- The second pattern `:\s*([^.]*?)(?:\.|$)`: always matches at the first
colon, the group running to the first dot or the end of the string. -/
def colonMatch2 : List Char → Option (List Char)
  | [] => none
  | c :: rest =>
      if c = ':' then some ((rest.dropWhile isWs).takeWhile (fun x => x ≠ '.'))
      else colonMatch2 rest

/-- The third pattern `\(TER\):\s*([^.]*?)(?:\.|Source)` with IGNORECASE. -/
def colonMatch3 : List Char → Option (List Char)
  | [] => none
  | c :: rest =>
      if ciIsPrefix "(ter):" (c :: rest) then
        match takeToTerm1 (((c :: rest).drop 6).dropWhile isWs) with
        | some g => some g
        | none => colonMatch3 rest
      else colonMatch3 rest

/-- The value captured by the direct-lookup pattern list, cleaned up as in
the source (strip, collapse whitespace, strip). -/
def directValue (text : String) : Option String :=
  match colonMatch1 text.toList with
  | some g => some (cleanValue (String.mk g))
  | none =>
      match colonMatch2 text.toList with
      | some g => some (cleanValue (String.mk g))
      | none => (colonMatch3 text.toList).map (fun g => cleanValue (String.mk g))

/-- chunk.get('chunk_text') or chunk.get('text', ''). -/
def effText (c : MChunk) : String := if c.chunk_text ≠ "" then c.chunk_text else c.text

/-- Python str.title on ASCII text. -/
def titleCaseAux : Bool → List Char → List Char
  | _, [] => []
  | prevAlpha, c :: rest =>
      (if c.isAlpha then (if prevAlpha then c.toLower else c.toUpper) else c) ::
        titleCaseAux c.isAlpha rest

def titleCase (s : String) : String := String.mk (titleCaseAux false s.toList)

/-- field.replace('_', ' '). -/
def replaceUnderscore (s : String) : String :=
  String.mk (s.toList.map (fun c => if c = '_' then ' ' else c))

def strTake (s : String) (n : Nat) : String := String.mk (s.toList.take n)

def strSlice (s : String) (a b : Nat) : String := String.mk ((s.toList.drop a).take (b - a))

/-- The field display name of the direct-lookup branch (title-cased field
name, then overridden for the six known fields). -/
def fieldDisplay (field : String) : String :=
  if field = "exit_load" then "Exit Load"
  else if field = "expense_ratio" then "Total Expense Ratio (TER)"
  else if field = "minimum_sip" then "Minimum SIP"
  else if field = "lock_in" then "Lock-in Period"
  else if field = "benchmark" then "Benchmark"
  else if field = "riskometer" then "Riskometer"
  else titleCase (replaceUnderscore field)

/-- The substring-based confidence of the direct field-chunk lookup: note
that source types containing neither sid, kim nor factsheet get MEDIUM. -/
def directConfidence (source_type : String) : String :=
  let stl := toLowerS source_type
  if strContains stl "sid" then "HIGH"
  else if strContains stl "kim" then "HIGH"
  else if strContains stl "factsheet" then "MEDIUM"
  else "MEDIUM"

/-- FIRST resolution step of `_extract_metric_strict`: the first chunk whose
field metadata equals the target field and whose text yields a value via the
pattern list. -/
def findDirectResult (field : String) (scheme_name : Option String)
    (chunks : List MChunk) : Option MetricResult :=
  chunks.findSome? (fun c =>
    if c.field = field then
      (directValue (effText c)).map (fun value =>
        { answer :=
            match scheme_name with
            | some name =>
                "The " ++ toLowerS (fieldDisplay field) ++ " for " ++ name ++ " is " ++
                  value ++ "."
            | none => "The " ++ toLowerS (fieldDisplay field) ++ " is " ++ value ++ ".",
          source_type := c.source_type, source_id := c.source_id,
          source_url := c.source_url,
          excerpt := strTake (effText c) 150,
          last_updated := c.last_fetched_date.getD "2025-11-17",
          confidence := directConfidence c.source_type })
    else none)

/-- FIELD_DISPLAY_NAMES from constants.py. -/
def FIELD_DISPLAY_NAMES : List (String × String) :=
  [("exit_load", "Exit Load"), ("expense_ratio", "Total Expense Ratio (TER)"),
   ("minimum_sip", "Minimum SIP"), ("min_lumpsum", "Minimum Application Amount"),
   ("lock_in", "Lock-in Period"), ("benchmark", "Benchmark"),
   ("riskometer", "Riskometer")]

/-- SCHEME_DISPLAY_NAMES from constants.py. -/
def SCHEME_DISPLAY_NAMES : List (String × String) :=
  [("LARGE_CAP", "HDFC Large Cap Fund"), ("FLEXI_CAP", "HDFC Flexi Cap Fund"),
   ("ELSS", "HDFC TaxSaver (ELSS)"), ("HYBRID", "HDFC Hybrid Equity Fund")]

/-- SECOND resolution step: direct lookup against chunks_clean.jsonl (the
file lookup itself is the `directChunk` oracle; the value regex is the first
colon pattern). -/
def secondPathResult (field : String) (scheme_name : Option String)
    (directChunk : Option MChunk) : Option MetricResult :=
  match directChunk with
  | none => none
  | some dc =>
      (colonMatch1 dc.chunk_text.toList).map (fun g =>
        let value := cleanValue (String.mk g)
        let fd := (lookupStr FIELD_DISPLAY_NAMES field).getD (titleCase (replaceUnderscore field))
        let scheme_name_used :=
          match scheme_name with
          | some n => n
          | none => (lookupStr SCHEME_DISPLAY_NAMES dc.scheme_tag).getD
              (replaceUnderscore dc.scheme_tag)
        { answer :=
            if scheme_name_used ≠ "" then
              "The " ++ toLowerS fd ++ " for " ++ scheme_name_used ++ " is " ++ value ++ "."
            else "The " ++ toLowerS fd ++ " is " ++ value ++ ".",
          source_type := dc.source_type, source_id := dc.source_id,
          source_url := dc.source_url,
          excerpt := strTake dc.chunk_text 150,
          last_updated := dc.last_fetched_date.getD "2025-11-17",
          confidence :=
            if strContains (toLowerS dc.source_type) "sid" ||
               strContains (toLowerS dc.source_type) "kim" then "HIGH" else "MEDIUM" })

/-- The metric keywords gating the regex fallback. -/
def METRIC_KEYWORDS_QA : List String :=
  ["minimum sip", "minimum lumpsum", "exit load", "lock-in", "lock in",
   "expense ratio", "ter", "benchmark", "riskometer", "nav", "amount",
   "percentage", "percent", "%"]

/-- The scheme-name-to-tag resolution of the fallback path (first matching
actual scheme decides; its lower-cased name is mapped through the tag
if-chain). -/
def schemeTagForName (actual_schemes : List String) (scheme_name : String) : Option String :=
  let snl := toLowerS scheme_name
  (actual_schemes.findSome? (fun s =>
    let sl := toLowerS s
    if strContains sl snl = true ∨ strContains snl sl = true ∨
        (snl = "elss" ∧ (strContains sl "elss" = true ∨ strContains sl "taxsaver" = true ∨
          strContains sl "tax saver" = true)) ∨
        (snl = "taxsaver" ∧ (strContains sl "elss" = true ∨ strContains sl "taxsaver" = true ∨
          strContains sl "tax saver" = true)) ∨
        (snl = "tax saver" ∧ (strContains sl "elss" = true ∨ strContains sl "taxsaver" = true ∨
          strContains sl "tax saver" = true)) then
      some sl
    else none)).bind (fun sl =>
    if strContains sl "large cap" then some "LARGE_CAP"
    else if strContains sl "flexi cap" then some "FLEXI_CAP"
    else if strContains sl "elss" || strContains sl "taxsaver" || strContains sl "tax saver"
      then some "ELSS"
    else if strContains sl "hybrid" then some "HYBRID"
    else none)

/-- A regex-fallback candidate of `_extract_metric_strict`. -/
structure MCandidate where
  chunk : MChunk
  numMatch : NumMatch
  source_type : String
  source_id : String
  authority_priority : Nat
deriving DecidableEq

/-- The candidate-collection loop of the regex fallback: skip rules for
expense-ratio reduction mentions and for riskometer-vs-expense chunks, then
the numeric-pattern oracle, then the reduction context check. -/
def extractMetricCandidates (extractNum : String → String → Option NumMatch)
    (sourceMetaType : String → Option String) (field : String)
    (chunks : List MChunk) : List MCandidate :=
  chunks.filterMap (fun c =>
    let st0 := c.source_type
    let st := if st0 = "" then (sourceMetaType c.source_id).getD "" else st0
    if field = "expense_ratio" ∧ strContains (toLowerS c.text) "reduction" = true ∧
        1 < chunks.length then none
    else if field = "riskometer" ∧
        ¬(strContains (toLowerS c.source_id) "amfi" = true ∧
          strContains (toLowerS c.text) "riskometer" = true) ∧
        (strContains (toLowerS c.text) "expense" = true ∧
          strContains (toLowerS c.text) "riskometer" = false) ∧
        1 < chunks.length then none
    else
      match extractNum c.text field with
      | none => none
      | some m =>
          if field = "expense_ratio" ∧
              strContains (toLowerS (strSlice c.text (m.matchStart - 50)
                (min c.text.length (m.matchEnd + 50)))) "reduction" = true ∧
              1 < chunks.length then none
          else some { chunk := c, numMatch := m, source_type := st,
                      source_id := c.source_id,
                      authority_priority := getSourceAuthorityPriority st })

/-- The oracles of the strict metric extractor: the per-field numeric regex
table, the source-metadata lookups, the value normalizer, the date
re-formatting, the two exit-load year regexes, and the chunks_clean.jsonl
lookup. -/
structure QAOracles where
  extractNum : String → String → Option NumMatch
  sourceMetaType : String → Option String
  sourceMetaDate : String → Option String
  normalizeMetricValue : String → String → String
  normalizeDate : String → String
  yearMatch : String → Option Nat
  afterMatch : String → Option Nat
  directChunk : String → Option String → Option MChunk

/-- The exit-load answer-line decoration of the regex fallback. -/
def exitLoadAnswer (o : QAOracles) (scheme_name : Option String)
    (chunkText normalized_value answer_line0 : String) : String :=
  let ctl := toLowerS chunkText
  if toLowerS normalized_value ∈ ["nil", "0", "0.00%", "0%"] ∨
      (strContains ctl "no exit load" = true ∧ strContains ctl "1.00%" = false) then
    "Exit Load (" ++ scheme_name.getD "Fund" ++ "): Nil (No exit load)"
  else if strContains ctl "year" then
    let a1 :=
      match o.yearMatch chunkText with
      | some y => answer_line0 ++ " if redeemed within " ++ toString y ++ " year"
      | none => answer_line0
    match o.afterMatch chunkText with
    | some y => a1 ++ ". No exit load after " ++ toString y ++ " year"
    | none => a1
  else answer_line0

/-- The result construction of the regex fallback for the selected
highest-authority candidate. -/
def buildFallbackResult (o : QAOracles) (field : String)
    (scheme_name : Option String) (best : MCandidate) : MetricResult :=
  let chunk := best.chunk
  let normalized_value := o.normalizeMetricValue best.numMatch.value field
  let confidence :=
    calculateConfidence best.source_type true (decide (normalized_value ≠ best.numMatch.value))
  let last_updated0 := (o.sourceMetaDate best.source_id).getD
    (chunk.last_updated.getD (chunk.last_fetched_date.getD "2025-11-18"))
  let last_updated :=
    if strContains last_updated0 "/" then o.normalizeDate last_updated0 else last_updated0
  let excerpt0 := best.numMatch.excerpt
  let excerpt :=
    if excerpt0.length < 20 then
      trimS (strSlice chunk.text (best.numMatch.matchStart - 10)
        (min chunk.text.length (best.numMatch.matchStart + 70)))
    else excerpt0
  let field_name := titleCase (replaceUnderscore field)
  let answer_line0 :=
    match scheme_name with
    | some n => field_name ++ " (" ++ n ++ "): " ++ normalized_value
    | none => field_name ++ ": " ++ normalized_value
  let answer_line :=
    if field = "exit_load" then
      exitLoadAnswer o scheme_name chunk.text normalized_value answer_line0
    else answer_line0
  { answer := answer_line, source_type := best.source_type,
    source_id := best.source_id, excerpt := excerpt,
    last_updated := last_updated, confidence := confidence,
    source_url := chunk.source_url }

/-- _extract_metric_strict: direct field-chunk lookup, then the file lookup,
then the regex fallback with authority-sorted candidate selection. -/
def extractMetricStrict (o : QAOracles) (actual_schemes : List String)
    (query : String) (chunks : List MChunk) (scheme_name : Option String) :
    Option MetricResult :=
  let ql := toLowerS query
  match identifyFieldFromQueryQA query with
  | none => none
  | some field =>
      match findDirectResult field scheme_name chunks with
      | some r => some r
      | none =>
          let trySecond := chunks.isEmpty = true ∨ ¬ chunks.any (fun c => c.field = field)
          match (if trySecond then
              secondPathResult field scheme_name (o.directChunk field scheme_name)
            else none) with
          | some r => some r
          | none =>
              if ¬ (METRIC_KEYWORDS_QA.any (fun kw => strContains ql kw)) = true then none
              else
                let chunks2 :=
                  match scheme_name with
                  | some sn =>
                      match schemeTagForName actual_schemes sn with
                      | some tag =>
                          chunks.filter (fun c => toUpperS c.scheme_tag = toUpperS tag)
                      | none => chunks
                  | none => chunks
                let cands := extractMetricCandidates o.extractNum o.sourceMetaType field chunks2
                match (stableSort
                    (fun a b => decide (a.authority_priority ≤ b.authority_priority))
                    cands).head? with
                | none => none
                | some best => some (buildFallbackResult o field scheme_name best)

/-! Concrete instances for C3 and C4 -/
def mkQaChunk (tx st sid f : String) : MChunk :=
  { text := tx, chunk_text := "", source_id := sid, source_type := st,
    source_url := "", scheme_tag := "ELSS", field := f,
    last_fetched_date := none, last_updated := none }

def chunksC3 : List MChunk :=
  [mkQaChunk "Exit load 1.00% factsheet" "factsheet_consolidated" "fs1" "",
   mkQaChunk "Exit load 1.00% kim" "kim_pdf" "kim1" "",
   mkQaChunk "Exit load 1.00% sid" "sid_pdf" "sid1" ""]

def exNumC3 : String → String → Option NumMatch :=
  fun _ _ => some { value := "1.00", excerpt := "Exit load 1.00% context here", matchStart := 10, matchEnd := 15 }

def chunkC4 : MChunk :=
  { text := "Exit Load: 1.00%. Source: test.",
    chunk_text := "Exit Load: 1.00%. Source: test.", source_id := "web1",
    source_type := "web_page", source_url := "", scheme_tag := "ELSS",
    field := "exit_load", last_fetched_date := none, last_updated := none }

def oraclesC4 : QAOracles :=
  { extractNum := fun _ _ => none, sourceMetaType := fun _ => none,
    sourceMetaDate := fun _ => none, normalizeMetricValue := fun v _ => v,
    normalizeDate := fun d => d, yearMatch := fun _ => none,
    afterMatch := fun _ => none, directChunk := fun _ _ => none }

/-! ### Offline fact extraction (clean_chunks.py)

The per-field regex extractors are abstracted as oracles in `CCExtractors`;
the strict source-priority allow-lists, the statutory ELSS lock-in override,
the expense-ratio source guard and the chunk creation are embedded
concretely. -/
/-- get_field_source_priority: ordered allow-list of source types per field. -/
def getFieldSourcePriority (field : String) : List String :=
  if field = "minimum_sip" then ["kim_pdf", "sid_pdf", "scheme_overview"]
  else if field = "min_lumpsum" then ["kim_pdf", "sid_pdf", "scheme_overview"]
  else if field = "exit_load" then
    ["sid_pdf", "kim_pdf", "factsheet_consolidated", "scheme_overview"]
  else if field = "lock_in" then ["regulatory"]
  else if field = "expense_ratio" then ["factsheet_consolidated", "regulatory"]
  else if field = "benchmark" then ["scheme_overview", "factsheet_consolidated"]
  else if field = "riskometer" then ["scheme_overview", "factsheet_consolidated"]
  else []

/-- should_extract_field. -/
def shouldExtractField (field source_type : String) : Bool :=
  (getFieldSourcePriority field).contains source_type

/-- extract_lock_in: only for ELSS; the substring checks are concrete and the
two year-capture regex patterns are the `lockInYears` oracle (the extraction
returns `3 years` exactly when some pattern captures the number 3). -/
def extractLockIn (lockInYears : String → List Nat) (text scheme_tag : String) :
    Option String :=
  if scheme_tag ≠ "ELSS" then none
  else if strContains (toUpperS text) "ELSS" || strContains text "Equity Linked Saving" then
    some "3 years"
  else if (lockInYears text).contains 3 then some "3 years"
  else none

/-- extract_expense_ratio: the strict source-type guard is concrete; the
regex-and-sanity-bound body is the `pct` oracle. -/
def extractExpenseRatio (pct : String → Option String) (text source_type : String) :
    Option String :=
  if ¬(source_type = "factsheet_consolidated" ∨ source_type = "regulatory") then none
  else pct text

/-- The per-field regex extractors of clean_chunks.py, as oracles (an oracle
returning `some v` models a truthy extracted value). -/
structure CCExtractors where
  minSip : String → Option String
  minLumpsum : String → Option String
  exitLoad : String → Option String
  lockInYears : String → List Nat
  expensePct : String → Option String
  benchmark : String → Option String
  riskometer : String → Option String

/-- The facts dictionary built by process_source; `none` models both an
absent key and an explicit None value. -/
structure CCFacts where
  min_sip : Option String
  min_lumpsum : Option String
  exit_load : Option String
  lock_in : Option String
  expense_ratio : Option String
  benchmark : Option String
  riskometer : Option String
deriving DecidableEq

/-- The fact-extraction block of process_source.  lock_in is set statutorily:
`3 years` for ELSS regardless of the extracted text, None otherwise. -/
def processFacts (ex : CCExtractors) (source_type scheme_tag text : String) : CCFacts :=
  { min_sip :=
      if shouldExtractField "minimum_sip" source_type then ex.minSip text else none,
    min_lumpsum :=
      if shouldExtractField "min_lumpsum" source_type then ex.minLumpsum text else none,
    exit_load :=
      if shouldExtractField "exit_load" source_type then ex.exitLoad text else none,
    lock_in := if scheme_tag = "ELSS" then some "3 years" else none,
    expense_ratio :=
      if shouldExtractField "expense_ratio" source_type then
        extractExpenseRatio ex.expensePct text source_type
      else none,
    benchmark :=
      if shouldExtractField "benchmark" source_type then ex.benchmark text else none,
    riskometer :=
      if shouldExtractField "riskometer" source_type then ex.riskometer text else none }

/-- The field_labels of create_chunk_text. -/
def FIELD_LABELS : List (String × String) :=
  [("minimum_sip", "Minimum SIP"), ("min_lumpsum", "Minimum application amount"),
   ("exit_load", "Exit Load"), ("lock_in", "Lock-in period"),
   ("expense_ratio", "Total Expense Ratio (TER)"), ("benchmark", "Benchmark"),
   ("riskometer", "Riskometer")]

/-- create_chunk_text (all three format branches of the source produce the
same string), truncated to 600 characters. -/
def createChunkText (field value source_id source_type : String) : String :=
  let label := (lookupStr FIELD_LABELS field).getD field
  let chunk_text :=
    label ++ ": " ++ value ++ ". Source: " ++ source_id ++ " (" ++ source_type ++ ")."
  if 600 < chunk_text.length then strTake chunk_text 597 ++ "..." else chunk_text

/-- A clean chunk row written to chunks_clean.jsonl. -/
structure CChunk where
  id : String
  source_id : String
  source_url : String
  authority : String
  source_type : String
  scheme_tag : String
  field : String
  chunk_index : Nat
  chunk_text : String
  last_fetched_date : String
deriving DecidableEq

/-- The chunk-creation loop of process_source: one chunk per truthy fact
value, iterating the facts keys in insertion order with the field_mapping. -/
def processChunks (ex : CCExtractors)
    (source_id source_url authority source_type scheme_tag last_fetched text : String) :
    List CChunk :=
  let facts := processFacts ex source_type scheme_tag text
  ([("min_sip", facts.min_sip, "minimum_sip"),
    ("min_lumpsum", facts.min_lumpsum, "min_lumpsum"),
    ("exit_load", facts.exit_load, "exit_load"),
    ("lock_in", facts.lock_in, "lock_in"),
    ("expense_ratio", facts.expense_ratio, "expense_ratio"),
    ("benchmark", facts.benchmark, "benchmark"),
    ("riskometer", facts.riskometer, "riskometer")]).filterMap
    (fun t => t.2.1.map (fun value =>
      { id := source_id ++ "__" ++ t.2.2, source_id := source_id,
        source_url := source_url, authority := authority, source_type := source_type,
        scheme_tag := scheme_tag, field := t.2.2, chunk_index := 0,
        chunk_text := createChunkText t.2.2 value source_id source_type,
        last_fetched_date := last_fetched }))

/-! ### Conflict detector (conflict_detector.py)

The value normalization regexes are simple enough to embed exactly:
`(\d+\.?\d*)\s*%` is implemented by a verified scan (`findPctMatch`) and
`(\d+)` by the first maximal digit run.  The CSV loading is modelled by a
list of fact rows; the wall-clock timestamp written into each record is the
explicit `now` argument. -/
/-- Does a `%` follow after optional whitespace. -/
def percentAfterWs (cs : List Char) : Bool :=
  match cs.dropWhile isWs with
  | '%' :: _ => true
  | _ => false

/-- Match attempt of `(\d+\.?\d*)\s*%` at a position starting with a digit:
the greedy digit run, an optional dot with a second greedy digit run, then
whitespace and `%`.  Shrinking either digit run cannot help (the following
character would be a digit, matching neither `\s*` nor `%`), so the greedy
reading is exact. -/
def pctAt (cs : List Char) : Option (List Char) :=
  let d1 := cs.takeWhile Char.isDigit
  let r1 := cs.dropWhile Char.isDigit
  match r1 with
  | '.' :: r2 =>
      let d2 := r2.takeWhile Char.isDigit
      let r3 := r2.dropWhile Char.isDigit
      if percentAfterWs r3 then some (d1 ++ '.' :: d2) else none
  | _ => if percentAfterWs r1 then some d1 else none

/-- `re.search(r"(\d+\.?\d*)\s*%", value)`: the leftmost position admitting a
match, scanning left to right. -/
def findPctMatch : List Char → Option (List Char)
  | [] => none
  | c :: rest =>
      if c.isDigit then
        match pctAt (c :: rest) with
        | some g => some g
        | none => findPctMatch rest
      else findPctMatch rest

/-- `re.search(r"(\d+)", s)`: the maximal digit run at the first digit. -/
def firstDigitRun (cs : List Char) : Option (List Char) :=
  let t := (cs.dropWhile (fun c => ¬ c.isDigit = true)).takeWhile Char.isDigit
  if t.isEmpty then none else some t

/-- ConflictDetector._get_source_priority (first substring match of the
source_priority dict in insertion order, default 0.5). -/
def getSourcePriority (source_id : String) : ℚ :=
  match [("sid", (1 : ℚ)), ("kim", 0.9), ("factsheet", 0.8), ("overview", 0.7),
         ("amfi", 0.9), ("sebi", 0.95), ("groww", 0.6)].find?
      (fun p => strContains (toLowerS source_id) p.1) with
  | some p => p.2
  | none => 0.5

/-- ConflictDetector._normalize_value. -/
def normalizeValue (value field : String) : Option ℚ :=
  if value = "" ∨ toLowerS value ∈ ["nil", "na", "n/a", "not available", ""] then none
  else if field = "expense_ratio" ∨ field = "exit_load" then
    (findPctMatch value.toList).map ratOfDecimal
  else if field = "minimum_sip" ∨ field = "min_lumpsum" then
    (firstDigitRun (value.toList.filter (fun c =>
      ¬(c = '₹' ∨ c = 'R' ∨ c = 's' ∨ c = '.' ∨ c = ',' ∨ c.isWhitespace = true)))).map
      (fun ds => (natOfDigits ds : ℚ))
  else if field = "lock_in" then
    (firstDigitRun value.toList).map (fun ds =>
      if strContains (toLowerS value) "month" then (natOfDigits ds : ℚ) / 12
      else (natOfDigits ds : ℚ))
  else none

/-- ConflictDetector._values_conflict with its default threshold argument. -/
def valuesConflict (val1 val2 : Option ℚ) (field : String) (threshold : ℚ) : Bool :=
  match val1, val2 with
  | some v1, some v2 =>
      if field = "expense_ratio" ∨ field = "exit_load" then decide (threshold < |v1 - v2|)
      else if field = "minimum_sip" ∨ field = "min_lumpsum" then decide (10 < |v1 - v2|)
      else if field = "lock_in" then decide (v1 ≠ v2)
      else false
  | _, _ => false

/-- One row of facts_extracted.csv (the fields detect_conflicts reads). -/
structure FactRow where
  source_id : String
  scheme_tag : String
  min_sip : String
  min_lumpsum : String
  exit_load : String
  lock_in : String
  expense_ratio : String
deriving DecidableEq

/-- The field list iterated by detect_conflicts.  Note `min_sip` is not a key
_normalize_value knows (it checks `minimum_sip`), so min_sip values never
normalize. -/
def CONFLICT_FIELDS : List String :=
  ["min_sip", "min_lumpsum", "exit_load", "lock_in", "expense_ratio"]

/-- row.get(field, ""). -/
def rowField (r : FactRow) (f : String) : String :=
  if f = "min_sip" then r.min_sip
  else if f = "min_lumpsum" then r.min_lumpsum
  else if f = "exit_load" then r.exit_load
  else if f = "lock_in" then r.lock_in
  else if f = "expense_ratio" then r.expense_ratio
  else ""

/-- The per-row per-field admission test of the grouping loop:
`value.strip()` truthy and not in the nil-markers. -/
def contributes (r : FactRow) (f : String) : Bool :=
  decide (trimS (rowField r f) ≠ "") &&
    decide (toLowerS (trimS (rowField r f)) ∉ (["nil", "na", "n/a", ""] : List String))

structure GroupEntry where
  source_id : String
  value : String
  priority : ℚ
deriving DecidableEq

/-- facts_by_scheme[scheme][field]: contributing rows of the scheme in file
order. -/
def groupEntries (rows : List FactRow) (scheme f : String) : List GroupEntry :=
  (rows.filter (fun r => r.scheme_tag = scheme)).filterMap (fun r =>
    if contributes r f then
      some { source_id := r.source_id, value := trimS (rowField r f),
             priority := getSourcePriority r.source_id }
    else none)

structure NormEntry where
  source_id : String
  value : String
  normalized : ℚ
  priority : ℚ
deriving DecidableEq

/-- The normalized sub-list of a group. -/
def normalizedEntries (rows : List FactRow) (scheme f : String) : List NormEntry :=
  (groupEntries rows scheme f).filterMap (fun e =>
    (normalizeValue e.value f).map (fun n =>
      { source_id := e.source_id, value := e.value, normalized := n,
        priority := e.priority }))

/-- Scheme keys of facts_by_scheme in insertion order. -/
def schemeOrder (rows : List FactRow) : List String :=
  rows.foldl (fun acc r => if r.scheme_tag ∈ acc then acc else acc ++ [r.scheme_tag]) []

/-- Field keys of facts_by_scheme[scheme] in insertion order. -/
def fieldOrder (rows : List FactRow) (scheme : String) : List String :=
  (rows.filter (fun r => r.scheme_tag = scheme)).foldl
    (fun acc r => CONFLICT_FIELDS.foldl
      (fun acc2 f => if contributes r f = true ∧ f ∉ acc2 then acc2 ++ [f] else acc2) acc)
    []

structure ConflictRecord where
  scheme_tag : String
  field : String
  authoritative_source : String
  authoritative_value : String
  conflicting_source : String
  conflicting_value : String
  authoritative_priority : ℚ
  conflicting_priority : ℚ
  detected_at : String
deriving DecidableEq

/-- The conflict dictionary appended per conflicting pair; `now` is the
wall-clock timestamp `datetime.now().isoformat()`. -/
def mkConflictRecord (scheme f : String) (top oth : NormEntry) (now : String) :
    ConflictRecord :=
  { scheme_tag := scheme, field := f, authoritative_source := top.source_id,
    authoritative_value := top.value, conflicting_source := oth.source_id,
    conflicting_value := oth.value, authoritative_priority := top.priority,
    conflicting_priority := oth.priority, detected_at := now }

/-- The per-(scheme, field) body of the conflict loop: need at least two
contributing sources and at least two normalizable values, sort descending by
priority (stably), compare the top value against every other. -/
def conflictsForGroup (rows : List FactRow) (scheme f now : String) :
    List ConflictRecord :=
  if (groupEntries rows scheme f).length < 2 then []
  else if 2 ≤ (normalizedEntries rows scheme f).length then
    match stableSort (fun a b => decide (b.priority ≤ a.priority))
        (normalizedEntries rows scheme f) with
    | top :: rest =>
        rest.filterMap (fun oth =>
          if valuesConflict (some top.normalized) (some oth.normalized) f 0.01 = true then
            some (mkConflictRecord scheme f top oth now)
          else none)
    | [] => []
  else []

/-- ConflictDetector.detect_conflicts over an in-memory fact table. -/
def detectConflicts (rows : List FactRow) (now : String) : List ConflictRecord :=
  (schemeOrder rows).flatMap (fun scheme =>
    (fieldOrder rows scheme).flatMap (fun f => conflictsForGroup rows scheme f now))

/-- Erase the wall-clock field of a record. -/
def eraseTime (r : ConflictRecord) : ConflictRecord := {r with detected_at := ""}

/-! Concrete fact tables for C7 and C8 -/
def mkRowEL (sid tag el : String) : FactRow :=
  { source_id := sid, scheme_tag := tag, min_sip := "", min_lumpsum := "",
    exit_load := el, lock_in := "", expense_ratio := "" }

def rowsC8 : List FactRow :=
  [mkRowEL "amc_elss_sid" "ELSS" "1.00%", mkRowEL "amc_elss_overview" "ELSS" "2.00%"]

def rowsC7 : List FactRow :=
  [mkRowEL "hdfc_elss_sid" "ELSS" "1.00%", mkRowEL "hdfc_elss_overview" "ELSS" "2.50%"]

def topC7 : NormEntry :=
  { source_id := "hdfc_elss_sid", value := "1.00%", normalized := 1, priority := 1 }

def othC7 : NormEntry :=
  { source_id := "hdfc_elss_overview", value := "2.50%", normalized := 2.5, priority := 0.7 }

/-! ## Theorems -/

theorem insertBefore_perm {α : Type} (r : α → α → Bool) (x : α) (l : List α) :
    (insertBefore r x l).Perm (x :: l) := by
  induction l with
  | nil => exact List.Perm.refl _
  | cons y ys ih =>
      rw [insertBefore]
      by_cases h : r x y = true
      · rw [if_pos h]
      · rw [if_neg h]
        exact ((ih.cons y).trans (List.Perm.swap x y ys))

theorem stableSort_perm {α : Type} (r : α → α → Bool) (l : List α) :
    (stableSort r l).Perm l := by
  induction l with
  | nil => simp [stableSort]
  | cons x xs ih =>
      exact (insertBefore_perm r x (stableSort r xs)).trans (ih.cons x)

theorem mem_stableSort {α : Type} (r : α → α → Bool) (l : List α) (a : α) :
    a ∈ stableSort r l ↔ a ∈ l :=
  (stableSort_perm r l).mem_iff

/-- If the new element goes before the old head, the sort leaves the list
unchanged; used for the all-keys-equal situation. -/
theorem stableSort_eq_self {α : Type} (r : α → α → Bool) (l : List α)
    (h : ∀ x ∈ l, ∀ y ∈ l, r x y = true) : stableSort r l = l := by
  induction l with
  | nil => rfl
  | cons x xs ih =>
      have hxs : stableSort r xs = xs := by
        apply ih
        intro a ha b hb
        exact h a (List.mem_cons_of_mem x ha) b (List.mem_cons_of_mem x hb)
      rw [stableSort, hxs]
      cases xs with
      | nil => rfl
      | cons y ys =>
          have hxy : r x y = true :=
            h x (List.mem_cons_self x _) y (List.mem_cons_of_mem x (List.mem_cons_self y ys))
          simp [insertBefore, hxy]

theorem pairwise_stableSort {α : Type} {p : α → α → Prop} (hs : Symmetric p)
    (r : α → α → Bool) {l : List α} (h : l.Pairwise p) :
    (stableSort r l).Pairwise p :=
  ((stableSort_perm r l).pairwise_iff (fun hab => hs hab)).mpr h

theorem head?_insertBefore_cons {α : Type} (r : α → α → Bool) (x y : α) (ys : List α) :
    (insertBefore r x (y :: ys)).head? = some (if r x y then x else y) := by
  by_cases h : r x y = true
  · simp [insertBefore, h]
  · simp only [Bool.not_eq_true] at h
    simp [insertBefore, h]

/-- The head of the ascending stable sort is the first element of the input
attaining the minimal key: there is a decomposition `l = l₁ ++ b :: l₂` with
`b` the head of the sorted list, `b` of minimal key, and every element before
`b` in the input of strictly larger key. -/
theorem stableSort_head_firstMin {α : Type} (key : α → Nat) (l : List α) (hl : l ≠ []) :
    ∃ b l₁ l₂, l = l₁ ++ b :: l₂ ∧
      (stableSort (fun a c => decide (key a ≤ key c)) l).head? = some b ∧
      (∀ a ∈ l, key b ≤ key a) ∧ (∀ a ∈ l₁, key b < key a) := by
  induction l with
  | nil => exact absurd rfl hl
  | cons x xs ih =>
      cases xs with
      | nil =>
          refine ⟨x, [], [], rfl, rfl, ?_, ?_⟩
          · intro a ha
            rw [List.mem_singleton] at ha
            exact ha ▸ le_refl _
          · intro a ha; exact absurd ha (List.not_mem_nil a)
      | cons y ys =>
          obtain ⟨b, l₁, l₂, hdec, hhead, hmin, hfront⟩ := ih (by simp)
          have hs : stableSort (fun a c => decide (key a ≤ key c)) (y :: ys) ≠ [] := by
            intro hnil
            have := (stableSort_perm (fun a c => decide (key a ≤ key c)) (y :: ys)).length_eq
            rw [hnil] at this
            simp at this
          obtain ⟨h0, tl, hshape⟩ : ∃ h0 tl,
              stableSort (fun a c => decide (key a ≤ key c)) (y :: ys) = h0 :: tl := by
            cases hcase : stableSort (fun a c => decide (key a ≤ key c)) (y :: ys) with
            | nil => exact absurd hcase hs
            | cons h0 tl => exact ⟨h0, tl, rfl⟩
          have hb : h0 = b := by
            have := hhead
            rw [hshape] at this
            simpa using this
          subst hb
          by_cases hle : key x ≤ key h0
          · refine ⟨x, [], y :: ys, rfl, ?_, ?_, ?_⟩
            · rw [stableSort, hshape, head?_insertBefore_cons]
              simp [hle]
            · intro a ha
              rcases List.mem_cons.mp ha with h | h
              · exact h ▸ le_refl _
              · exact le_trans hle (hmin a h)
            · intro a ha; exact absurd ha (List.not_mem_nil a)
          · have hlt : key h0 < key x := lt_of_not_le hle
            refine ⟨h0, x :: l₁, l₂, by rw [List.cons_append, ← hdec], ?_, ?_, ?_⟩
            · rw [stableSort, hshape, head?_insertBefore_cons]
              simp [hle]
            · intro a ha
              rcases List.mem_cons.mp ha with h | h
              · exact h ▸ le_of_lt hlt
              · exact hmin a h
            · intro a ha
              rcases List.mem_cons.mp ha with h | h
              · exact h ▸ hlt
              · exact hfront a h

theorem calculateKeywordScore_eq_spec (text : String) (keywords : List String) :
    calculateKeywordScore text keywords = keywordScoreSpec text keywords := by
  have step : ∀ (ks : List String) (a : ℚ),
      ks.foldl
        (fun score keyword =>
          let count := countOccur (toLowerS text) (toLowerS keyword)
          if count > 0 then score + (count : ℚ) * (1 / (1 + (count : ℚ) * 0.5)) else score)
        a = a + keywordScoreSpec text ks := by
    intro ks
    induction ks with
    | nil => intro a; simp [keywordScoreSpec]
    | cons k rest ih =>
        intro a
        rw [List.foldl_cons, ih]
        simp only [keywordScoreSpec, List.map_cons, List.sum_cons]
        by_cases hc : countOccur (toLowerS text) (toLowerS k) > 0
        · rw [if_pos hc]
          have hterm : (countOccur (toLowerS text) (toLowerS k) : ℚ) *
              (1 / (1 + (countOccur (toLowerS text) (toLowerS k) : ℚ) * 0.5)) =
              (countOccur (toLowerS text) (toLowerS k) : ℚ) /
              (1 + 0.5 * (countOccur (toLowerS text) (toLowerS k) : ℚ)) := by ring
          rw [hterm, add_assoc]
        · rw [if_neg hc]
          have h0 : countOccur (toLowerS text) (toLowerS k) = 0 := Nat.eq_zero_of_not_pos hc
          simp [h0]
  rw [calculateKeywordScore, step, zero_add]

theorem scoreLoop_mem (env : RetrieverEnv) (hits : List (ℚ × Nat)) :
    ∀ (seenT : Finset (List Char)) (seenI : Finset Nat) (e : RResult),
      e ∈ (scoreLoop env hits seenT seenI).1 → ∃ p ∈ hits, e = mkEntry env p.1 p.2 := by
  induction hits with
  | nil => intro seenT seenI e he; simp [scoreLoop] at he
  | cons hd rest ih =>
      intro seenT seenI e he
      obtain ⟨d, i⟩ := hd
      simp only [scoreLoop] at he
      by_cases hfp : fingerprint ((env.metadata.getD i dummyMeta).text) ∈ seenT
      · rw [if_pos hfp] at he
        obtain ⟨p, hp, hpe⟩ := ih seenT seenI e he
        exact ⟨p, List.mem_cons_of_mem _ hp, hpe⟩
      · rw [if_neg hfp] at he
        rcases List.mem_cons.mp he with h | h
        · exact ⟨(d, i), List.mem_cons_self _ _, h⟩
        · obtain ⟨p, hp, hpe⟩ := ih _ _ e h
          exact ⟨p, List.mem_cons_of_mem _ hp, hpe⟩

theorem scoreLoop_dedup (env : RetrieverEnv) (hits : List (ℚ × Nat)) :
    ∀ (seenT : Finset (List Char)) (seenI : Finset Nat),
      ((scoreLoop env hits seenT seenI).1.Pairwise
        (fun a b => fingerprint a.text ≠ fingerprint b.text)) ∧
      (∀ e ∈ (scoreLoop env hits seenT seenI).1, fingerprint e.text ∉ seenT) := by
  induction hits with
  | nil => intro seenT seenI; constructor
           · simp [scoreLoop]
           · intro e he; simp [scoreLoop] at he
  | cons hd rest ih =>
      intro seenT seenI
      obtain ⟨d, i⟩ := hd
      simp only [scoreLoop]
      by_cases hfp : fingerprint ((env.metadata.getD i dummyMeta).text) ∈ seenT
      · rw [if_pos hfp]
        exact ih seenT seenI
      · rw [if_neg hfp]
        have htext : (mkEntry env d i).text = (env.metadata.getD i dummyMeta).text := rfl
        obtain ⟨ihp, ihn⟩ :=
          ih (insert (fingerprint ((env.metadata.getD i dummyMeta).text)) seenT) (insert i seenI)
        constructor
        · rw [List.pairwise_cons]
          refine ⟨?_, ihp⟩
          intro b hb
          have := ihn b hb
          rw [htext]
          intro hcontra
          exact this (hcontra ▸ Finset.mem_insert_self _ _)
        · intro e he
          rcases List.mem_cons.mp he with h | h
          · rw [h, htext]; exact hfp
          · intro hmem
            exact ihn e h (Finset.mem_insert_of_mem hmem)

theorem rerank_mem (env : RetrieverEnv) (query : String) (chunks : List RResult)
    (top_k : Nat) (r : RResult) (hr : r ∈ rerank env query chunks top_k) :
    ∃ c ∈ chunks, r.text = c.text ∧ r.scheme_tag = c.scheme_tag ∧ r.source_id = c.source_id := by
  rw [rerank] at hr
  by_cases hemp : chunks.isEmpty
  · rw [if_pos hemp] at hr; simp at hr
  · rw [if_neg hemp] at hr
    by_cases hload : env.rerankerLoaded = false
    · rw [if_pos hload] at hr
      exact ⟨r, (List.take_sublist _ _).subset hr, rfl, rfl, rfl⟩
    · rw [if_neg hload] at hr
      simp only [List.mem_map] at hr
      obtain ⟨p, hp, hpr⟩ := hr
      have hp1 : p ∈ stableSort (fun a b => decide (b.2 ≤ a.2))
          (chunks.map (fun c => (c, env.crossScore query c.text))) :=
        (List.take_sublist _ _).subset hp
      rw [mem_stableSort] at hp1
      obtain ⟨c, hc, hcp⟩ := List.mem_map.mp hp1
      refine ⟨c, hc, ?_, ?_, ?_⟩ <;> rw [← hpr, ← hcp]

theorem rerank_pairwise (env : RetrieverEnv) (query : String) (chunks : List RResult)
    (top_k : Nat)
    (h : chunks.Pairwise (fun a b => fingerprint a.text ≠ fingerprint b.text)) :
    (rerank env query chunks top_k).Pairwise
      (fun a b => fingerprint a.text ≠ fingerprint b.text) := by
  rw [rerank]
  by_cases hemp : chunks.isEmpty
  · rw [if_pos hemp]; exact List.Pairwise.nil
  · rw [if_neg hemp]
    by_cases hload : env.rerankerLoaded = false
    · rw [if_pos hload]
      exact List.Pairwise.sublist (List.take_sublist _ _) h
    · rw [if_neg hload]
      rw [List.pairwise_map]
      refine List.Pairwise.sublist (List.take_sublist _ _) ?_
      refine pairwise_stableSort ?_ _ ?_
      · intro p q hpq hqp
        exact hpq hqp.symm
      · rw [List.pairwise_map]
        exact h.imp (fun hab => hab)

theorem rerankWithMetadata_mem (env : RetrieverEnv) (query : String)
    (chunks : List RResult) (top_k : Nat) (b1 b2 : Bool) (r : RResult)
    (hr : r ∈ rerankWithMetadata env query chunks top_k b1 b2) :
    ∃ c ∈ chunks, r.text = c.text ∧ r.scheme_tag = c.scheme_tag ∧ r.source_id = c.source_id := by
  rw [rerankWithMetadata] at hr
  by_cases hemp : chunks.isEmpty
  · rw [if_pos hemp] at hr; simp at hr
  · rw [if_neg hemp] at hr
    by_cases hnb : b1 = false ∧ b2 = false
    · rw [if_pos hnb] at hr
      exact rerank_mem env query chunks chunks.length r ((List.take_sublist _ _).subset hr)
    · rw [if_neg hnb] at hr
      have hr1 := (List.take_sublist _ _).subset hr
      rw [mem_stableSort] at hr1
      obtain ⟨c1, hc1, hc1r⟩ := List.mem_map.mp hr1
      obtain ⟨c, hc, hct, hcs, hci⟩ := rerank_mem env query chunks chunks.length c1 hc1
      refine ⟨c, hc, ?_, ?_, ?_⟩
      · rw [← hc1r]; exact hct
      · rw [← hc1r]; exact hcs
      · rw [← hc1r]; exact hci

theorem rerankWithMetadata_pairwise (env : RetrieverEnv) (query : String)
    (chunks : List RResult) (top_k : Nat) (b1 b2 : Bool)
    (h : chunks.Pairwise (fun a b => fingerprint a.text ≠ fingerprint b.text)) :
    (rerankWithMetadata env query chunks top_k b1 b2).Pairwise
      (fun a b => fingerprint a.text ≠ fingerprint b.text) := by
  rw [rerankWithMetadata]
  by_cases hemp : chunks.isEmpty
  · rw [if_pos hemp]; exact List.Pairwise.nil
  · rw [if_neg hemp]
    have hp1 := rerank_pairwise env query chunks chunks.length h
    by_cases hnb : b1 = false ∧ b2 = false
    · rw [if_pos hnb]
      exact List.Pairwise.sublist (List.take_sublist _ _) hp1
    · rw [if_neg hnb]
      refine List.Pairwise.sublist (List.take_sublist _ _) ?_
      refine pairwise_stableSort ?_ _ ?_
      · intro p q hpq hqp
        exact hpq hqp.symm
      · rw [List.pairwise_map]
        refine hp1.imp ?_
        intro a b hab
        simpa [boostChunk] using hab

theorem rerankWithMetadata_length_le (env : RetrieverEnv) (query : String)
    (chunks : List RResult) (top_k : Nat) (b1 b2 : Bool) :
    (rerankWithMetadata env query chunks top_k b1 b2).length ≤ top_k := by
  rw [rerankWithMetadata]
  by_cases hemp : chunks.isEmpty
  · rw [if_pos hemp]; exact Nat.zero_le _
  · rw [if_neg hemp]
    by_cases hnb : b1 = false ∧ b2 = false
    · rw [if_pos hnb]; exact List.length_take_le _ _
    · rw [if_neg hnb]; exact List.length_take_le _ _

theorem retrieveResults1_no_overview (env : RetrieverEnv) (query : String)
    (top_k : Nat) (uh ur : Bool) :
    retrieveResults1 env query top_k false uh ur =
      ((stableSort
        (fun a b => decide (b.relevance_score.getD 0 ≤ a.relevance_score.getD 0))
        (retrieveScored env query top_k uh).1).take
          (if ur ∧ env.rerankerLoaded = true then top_k * 2 else top_k)).map
        stripForOutput := by
  simp only [retrieveResults1, Bool.false_eq_true, false_and, if_false]

theorem retrieve_mem_scored (env : RetrieverEnv) (query : String) (top_k : Nat)
    (uh ur : Bool) (r : RResult) (hr : r ∈ retrieve env query top_k false uh ur) :
    ∃ e ∈ (retrieveScored env query top_k uh).1,
      r.text = e.text ∧ r.scheme_tag = e.scheme_tag ∧ r.source_id = e.source_id := by
  simp only [retrieve] at hr
  by_cases hemp : (env.search (retrieveSearchK env query top_k uh)).isEmpty = true
  · rw [if_pos hemp] at hr; simp at hr
  · rw [if_neg hemp] at hr
    have key : ∀ x ∈ retrieveResults1 env query top_k false uh ur,
        ∃ e ∈ (retrieveScored env query top_k uh).1,
          x.text = e.text ∧ x.scheme_tag = e.scheme_tag ∧ x.source_id = e.source_id := by
      intro x hx
      rw [retrieveResults1_no_overview] at hx
      obtain ⟨e1, he1, hstrip⟩ := List.mem_map.mp hx
      have he2 : e1 ∈ (retrieveScored env query top_k uh).1 :=
        (mem_stableSort _ _ _).mp ((List.take_sublist _ _).subset he1)
      exact ⟨e1, he2, by rw [← hstrip]; rfl, by rw [← hstrip]; rfl, by rw [← hstrip]; rfl⟩
    by_cases hbr : ur ∧ env.rerankerLoaded = true ∧
        top_k < (retrieveResults1 env query top_k false uh ur).length
    · rw [if_pos hbr] at hr
      obtain ⟨c, hc, h1, h2, h3⟩ :=
        rerankWithMetadata_mem env query
          ((retrieveResults1 env query top_k false uh ur).take (top_k * 2)) top_k true true r hr
      obtain ⟨e, he, g1, g2, g3⟩ := key c ((List.take_sublist _ _).subset hc)
      exact ⟨e, he, h1.trans g1, h2.trans g2, h3.trans g3⟩
    · rw [if_neg hbr] at hr
      exact key r ((List.take_sublist _ _).subset hr)

theorem retrieveCandidate_scheme (env : RetrieverEnv) (query s : String)
    (hid : identifySchemeFromQuery query = some s)
    (hne : (schemeIndexSet env.metadata (mappedSchemeTag s)).Nonempty)
    (hqt : env.queryType ≠ "metric") :
    retrieveCandidate env query true =
      some (schemeIndexSet env.metadata (mappedSchemeTag s)) := by
  simp only [retrieveCandidate, hid, if_true, Option.isSome_some]
  rw [if_pos hne, if_neg]
  intro hcontra
  exact hqt hcontra.1

theorem retrieveHits1_tags (env : RetrieverEnv) (query s : String) (top_k : Nat)
    (hid : identifySchemeFromQuery query = some s)
    (hne : (schemeIndexSet env.metadata (mappedSchemeTag s)).Nonempty)
    (hqt : env.queryType ≠ "metric")
    (hvalid : ∀ n, ∀ p ∈ env.search n, p.2 < env.metadata.length)
    (hfall : ∃ p ∈ env.search (retrieveSearchK env query top_k true),
      p.2 ∈ schemeIndexSet env.metadata (mappedSchemeTag s)) :
    ∀ p ∈ retrieveHits1 env query top_k true,
      (env.metadata.getD p.2 dummyMeta).scheme_tag = mappedSchemeTag s := by
  intro p hp
  have hcand := retrieveCandidate_scheme env query s hid hne hqt
  simp only [retrieveHits1, hcand] at hp
  by_cases hlt :
      (schemeIndexSet env.metadata (mappedSchemeTag s)).card < env.metadata.length
  · rw [if_pos ⟨trivial, hne, hlt⟩] at hp
    have hfne : ¬((env.search (retrieveSearchK env query top_k true)).filter
        (fun q => q.2 ∈ schemeIndexSet env.metadata (mappedSchemeTag s))).isEmpty = true := by
      obtain ⟨p0, hp0, hp0c⟩ := hfall
      intro hempty
      rw [List.isEmpty_iff] at hempty
      have : p0 ∈ (env.search (retrieveSearchK env query top_k true)).filter
          (fun q => q.2 ∈ schemeIndexSet env.metadata (mappedSchemeTag s)) :=
        List.mem_filter.mpr ⟨hp0, by simpa using hp0c⟩
      rw [hempty] at this
      exact List.not_mem_nil p0 this
    rw [if_neg hfne] at hp
    have hmem := (mem_stableSort _ _ _).mp ((List.take_sublist _ _).subset hp)
    have hpc := (List.mem_filter.mp hmem).2
    have hpc2 : p.2 ∈ schemeIndexSet env.metadata (mappedSchemeTag s) := by simpa using hpc
    simpa using (Finset.mem_filter.mp hpc2).2
  · rw [if_neg (fun h => hlt h.2.2)] at hp
    have hplen := hvalid _ p hp
    have hceq : schemeIndexSet env.metadata (mappedSchemeTag s) =
        Finset.range env.metadata.length := by
      apply Finset.eq_of_subset_of_card_le (Finset.filter_subset _ _)
      rw [Finset.card_range]
      exact Nat.le_of_not_lt hlt
    have hmem : p.2 ∈ schemeIndexSet env.metadata (mappedSchemeTag s) :=
      hceq ▸ Finset.mem_range.mpr hplen
    simpa using (Finset.mem_filter.mp hmem).2

theorem retrieve_length_le (env : RetrieverEnv) (query : String) (top_k : Nat)
    (io uh ur : Bool) : (retrieve env query top_k io uh ur).length ≤ top_k := by
  simp only [retrieve]
  by_cases hemp : (env.search (retrieveSearchK env query top_k uh)).isEmpty = true
  · rw [if_pos hemp]; exact Nat.zero_le _
  · rw [if_neg hemp]
    by_cases hbr : ur ∧ env.rerankerLoaded = true ∧
        top_k < (retrieveResults1 env query top_k io uh ur).length
    · rw [if_pos hbr]; exact rerankWithMetadata_length_le _ _ _ _ _ _
    · rw [if_neg hbr]; exact List.length_take_le _ _

/-! ### Claims C1, C2, C9, C10 -/
/-- C1: every candidate scored by retrieve() carries the combined relevance
score `0.5 * vector_similarity + 0.15 * min(keyword_score, 2.0) +
0.15 * source_authority + 0.2 * type_boost`, where the keyword score is the
sum over expanded keywords of `count / (1 + 0.5 * count)` and the source
authority score defaults to 0.5 for sources matching no known source type. -/
theorem c1_relevance_formula :
    (∀ (env : RetrieverEnv) (query : String) (top_k : Nat) (uh : Bool) (e : RResult),
      e ∈ (retrieveScored env query top_k uh).1 →
      e.relevance_score = some (0.5 * e.similarity +
        0.15 * min (keywordScoreSpec e.text env.boostKeywords) 2 +
        0.15 * getSourceAuthorityScore e.source_id +
        0.2 * typeBoost env.ros env.queryType e.text e.source_id)) ∧
    (∀ sid : String,
      (∀ p ∈ SOURCE_AUTHORITY, strContains (toLowerS sid) p.1 = false) →
      getSourceAuthorityScore sid = 0.5) := by
  constructor
  · intro env query top_k uh e he
    simp only [retrieveScored] at he
    obtain ⟨p, _, rfl⟩ := scoreLoop_mem env _ ∅ ∅ e he
    simp only [mkEntry]
    rw [Option.some_inj, calculateKeywordScore_eq_spec]
    ring
  · intro sid h
    rw [getSourceAuthorityScore]
    cases hfind : SOURCE_AUTHORITY.find? (fun p => strContains (toLowerS sid) p.1) with
    | none => rfl
    | some p =>
        have hp := List.find?_some hfind
        have hmem := List.mem_of_find?_eq_some hfind
        rw [h p hmem] at hp
        exact absurd hp (by simp)

/-- Witness for C1: the single scored entry of a concrete one-chunk corpus
satisfies the relevance formula. -/
theorem c1_witness :
    (mkEntry envC1w (0.9 : ℚ) 0).relevance_score =
      some (0.5 * (mkEntry envC1w (0.9 : ℚ) 0).similarity +
        0.15 * min (keywordScoreSpec (mkEntry envC1w (0.9 : ℚ) 0).text envC1w.boostKeywords) 2 +
        0.15 * getSourceAuthorityScore (mkEntry envC1w (0.9 : ℚ) 0).source_id +
        0.2 * typeBoost envC1w.ros envC1w.queryType (mkEntry envC1w (0.9 : ℚ) 0).text
          (mkEntry envC1w (0.9 : ℚ) 0).source_id) :=
  c1_relevance_formula.1 envC1w "info" 1 true _ (by with_unfolding_all decide)

/-- C2 counterexample: the query identifies the scheme `elss`, the corpus
contains only a HYBRID-tagged chunk (so the mapped tag ELSS has no index
bucket), every vector hit lies in the candidate set — so the fallback clause
of the claim does not apply — and yet retrieve returns a chunk tagged
HYBRID, which is neither untagged nor tagged with the identified scheme. -/
theorem c2_counterexample :
    identifySchemeFromQuery "which elss fund" = some "elss" ∧
    mappedSchemeTag "elss" = "ELSS" ∧
    (∀ p ∈ envC2cex.search (retrieveSearchK envC2cex "which elss fund" 1 true),
      p.2 ∈ (retrieveCandidate envC2cex "which elss fund" true).getD ∅) ∧
    (retrieve envC2cex "which elss fund" 1 true true true).map (fun r => r.scheme_tag) =
      ["HYBRID"] := by
  decide

/-- C2 (amended): retrieve returns at most k results; and when a scheme tag S
is identified from the query, the mapped tag has a non-empty index bucket,
the query is not a metric query, overview injection is off, and some vector
hit lies in the candidate set (the no-fallback condition), every returned
chunk is tagged with the mapped tag. -/
theorem c2_hierarchical_filtering :
    (∀ (env : RetrieverEnv) (query : String) (top_k : Nat) (io uh ur : Bool),
      (retrieve env query top_k io uh ur).length ≤ top_k) ∧
    (∀ (env : RetrieverEnv) (query s : String) (top_k : Nat) (ur : Bool),
      identifySchemeFromQuery query = some s →
      (schemeIndexSet env.metadata (mappedSchemeTag s)).Nonempty →
      env.queryType ≠ "metric" →
      (∀ n, ∀ p ∈ env.search n, p.2 < env.metadata.length) →
      (∃ p ∈ env.search (retrieveSearchK env query top_k true),
        p.2 ∈ schemeIndexSet env.metadata (mappedSchemeTag s)) →
      ∀ r ∈ retrieve env query top_k false true ur,
        r.scheme_tag = mappedSchemeTag s) := by
  constructor
  · intro env query top_k io uh ur
    exact retrieve_length_le env query top_k io uh ur
  · intro env query s top_k ur hid hne hqt hvalid hfall r hr
    obtain ⟨e, he, _, hs, _⟩ := retrieve_mem_scored env query top_k true ur r hr
    simp only [retrieveScored] at he
    obtain ⟨p, hp, rfl⟩ := scoreLoop_mem env _ ∅ ∅ e he
    rw [hs]
    exact retrieveHits1_tags env query s top_k hid hne hqt hvalid hfall p hp

/-- Witness for C2 (amended): one-chunk ELSS corpus, ELSS query. -/
theorem c2_witness :
    ((retrieve envC2w "which elss fund" 1 false true true).length ≤ 1) ∧
    (∀ r ∈ retrieve envC2w "which elss fund" 1 false true true,
      r.scheme_tag = mappedSchemeTag "elss") := by
  constructor
  · exact c2_hierarchical_filtering.1 envC2w "which elss fund" 1 false true true
  · refine c2_hierarchical_filtering.2 envC2w "which elss fund" "elss" 1 true
      (by decide) (by decide) (by decide) ?_ ?_
    · intro n p hp
      have h := List.mem_singleton.mp hp
      subst h
      decide
    · exact ⟨(0.9, 0), by with_unfolding_all decide, by with_unfolding_all decide⟩

/-- C9 counterexample: with the cross-encoder model not loaded,
rerank_with_metadata still adds a final_score key (value 0.0) to every
returned candidate, contradicting the claim that no score field is added
beyond what retrieval computed. -/
theorem c9_counterexample :
    blankResult.final_score = none ∧
    (rerankWithMetadata envC9 "query" [blankResult] 1 true true).map
      (fun r => r.final_score) = [some 0] := by
  with_unfolding_all decide

/-- C9 (amended): when the cross-encoder model failed to load, rerank returns
the input truncated to top_k (first half of the claim, unchanged); and
rerank_with_metadata returns the first top_k candidates unchanged in order
and content except that each one gains a final_score key set to 0.0 (because
the missing rerank_score defaults to 0.0, which every multiplicative boost
maps to 0.0). -/
theorem c9_reranker_fallback (env : RetrieverEnv) (query : String)
    (chunks : List RResult) (top_k : Nat)
    (h1 : env.rerankerLoaded = false)
    (h2 : ∀ c ∈ chunks, c.rerank_score = none) :
    rerank env query chunks top_k = chunks.take top_k ∧
    rerankWithMetadata env query chunks top_k true true =
      (chunks.map (fun c => {c with final_score := some 0})).take top_k := by
  have hrk : ∀ n, rerank env query chunks n = chunks.take n := by
    intro n
    rw [rerank]
    by_cases hemp : chunks.isEmpty
    · rw [if_pos hemp, List.isEmpty_iff.mp hemp, List.take_nil]
    · rw [if_neg hemp, if_pos h1]
  refine ⟨hrk top_k, ?_⟩
  rw [rerankWithMetadata]
  by_cases hemp : chunks.isEmpty
  · rw [if_pos hemp, List.isEmpty_iff.mp hemp, List.map_nil, List.take_nil]
  · rw [if_neg hemp, if_neg (by simp), hrk chunks.length, List.take_length]
    have hboost : chunks.map (boostChunk true true) =
        chunks.map (fun c => {c with final_score := some 0}) := by
      apply List.map_congr_left
      intro c hc
      simp only [boostChunk, h2 c hc, Option.getD_none, if_true, zero_mul]
      split_ifs <;> simp
    rw [hboost]
    have hkeys : ∀ x ∈ chunks.map (fun c => {c with final_score := some (0 : ℚ)}),
        ∀ y ∈ chunks.map (fun c => {c with final_score := some (0 : ℚ)}),
        decide (y.final_score.getD 0 ≤ x.final_score.getD 0) = true := by
      intro x hx y hy
      obtain ⟨cx, _, hcx⟩ := List.mem_map.mp hx
      obtain ⟨cy, _, hcy⟩ := List.mem_map.mp hy
      rw [← hcx, ← hcy]
      simp
    rw [stableSort_eq_self _ _ hkeys]

/-- Witness for C9 (amended): a concrete one-candidate call. -/
theorem c9_witness :
    rerank envC9 "query" [blankResult2] 1 = [blankResult2].take 1 ∧
    rerankWithMetadata envC9 "query" [blankResult2] 1 true true =
      ([blankResult2].map (fun c => {c with final_score := some 0})).take 1 :=
  c9_reranker_fallback envC9 "query" [blankResult2] 1 rfl (by decide)

/-- C10 counterexample: two corpus chunks with identical text (hence
identical first-100-character fingerprints) are both returned by retrieve:
the second one is appended by the overview-injection block, which checks only
seen indices, not the text fingerprint. -/
theorem c10_counterexample :
    (retrieve envC10 "elss expense ratio" 2 true true true).map (fun r => r.source_id) =
      ["amc_elss_sid", "amc_elss_overview"] ∧
    (retrieve envC10 "elss expense ratio" 2 true true true).map
      (fun r => fingerprint r.text) = [fingerprint textC10, fingerprint textC10] := by
  decide

/-- C10 (amended): with the overview-injection block disabled
(include_overview = false), no two results returned by retrieve agree on
their first-100-character text fingerprint. -/
theorem c10_dedup :
    ∀ (env : RetrieverEnv) (query : String) (top_k : Nat) (io uh ur : Bool),
      io = false →
      (retrieve env query top_k io uh ur).Pairwise
        (fun a b => fingerprint a.text ≠ fingerprint b.text) := by
  intro env query top_k io uh ur hio
  subst hio
  have hscored := (scoreLoop_dedup env (retrieveHits1 env query top_k uh) ∅ ∅).1
  have hL : (retrieveResults1 env query top_k false uh ur).Pairwise
      (fun a b => fingerprint a.text ≠ fingerprint b.text) := by
    rw [retrieveResults1_no_overview, List.pairwise_map]
    refine List.Pairwise.sublist (List.take_sublist _ _) ?_
    refine pairwise_stableSort ?_ _ ?_
    · intro a b hab hba
      exact hab hba.symm
    · exact hscored.imp (fun hab => hab)
  simp only [retrieve]
  by_cases hemp : (env.search (retrieveSearchK env query top_k uh)).isEmpty = true
  · rw [if_pos hemp]; exact List.Pairwise.nil
  · rw [if_neg hemp]
    by_cases hbr : ur ∧ env.rerankerLoaded = true ∧
        top_k < (retrieveResults1 env query top_k false uh ur).length
    · rw [if_pos hbr]
      exact rerankWithMetadata_pairwise env query _ top_k true true
        (List.Pairwise.sublist (List.take_sublist _ _) hL)
    · rw [if_neg hbr]
      exact List.Pairwise.sublist (List.take_sublist _ _) hL

/-- Witness for C10 (amended): a concrete retrieval with overview injection
off has pairwise-distinct fingerprints. -/
theorem c10_witness :
    (retrieve envC10 "elss expense ratio" 2 false true true).Pairwise
      (fun a b => fingerprint a.text ≠ fingerprint b.text) :=
  c10_dedup envC10 "elss expense ratio" 2 false true true rfl

theorem getSourceAuthorityPriority_pos (st : String) :
    1 ≤ getSourceAuthorityPriority st := by
  rw [getSourceAuthorityPriority]
  split_ifs <;> omega

theorem getSourceAuthorityPriority_eq_one_iff (st : String) :
    getSourceAuthorityPriority st = 1 ↔ st = "sid_pdf" := by
  constructor
  · intro h
    rw [getSourceAuthorityPriority] at h
    split_ifs at h with h1 h2 h3 h4
    · exact h1
    · omega
    · omega
    · omega
    · omega
  · intro h
    rw [h]
    decide

theorem getSourceAuthorityPriority_eq_two_iff (st : String) :
    getSourceAuthorityPriority st = 2 ↔ st = "kim_pdf" := by
  constructor
  · intro h
    rw [getSourceAuthorityPriority] at h
    split_ifs at h with h1 h2 h3 h4
    · omega
    · exact h2
    · omega
    · omega
    · omega
  · intro h
    rw [h]
    decide

theorem extractMetricCandidates_priority
    (extractNum : String → String → Option NumMatch)
    (sourceMetaType : String → Option String) (field : String) (chunks : List MChunk) :
    ∀ c ∈ extractMetricCandidates extractNum sourceMetaType field chunks,
      c.authority_priority = getSourceAuthorityPriority c.source_type := by
  intro c hc
  simp only [extractMetricCandidates, List.mem_filterMap] at hc
  obtain ⟨a, _, hsome⟩ := hc
  split_ifs at hsome
  all_goals cases hm : extractNum a.text field with
    | none => rw [hm] at hsome; exact absurd hsome (by simp)
    | some m =>
        rw [hm] at hsome
        dsimp only [] at hsome
        split_ifs at hsome
        rw [Option.some_inj] at hsome
        rw [← hsome]

/-- C3: among the regex-fallback candidates, `_extract_metric_strict` selects
the first candidate (in encounter order) with the lowest authority-priority
number; in particular a sid_pdf candidate always wins, a kim_pdf candidate
wins when no sid_pdf candidate exists, and a factsheet_consolidated candidate
is never selected while a sid_pdf or kim_pdf candidate is present. -/
theorem c3_authority_selection
    (extractNum : String → String → Option NumMatch)
    (sourceMetaType : String → Option String) (field : String) (chunks : List MChunk)
    (hne : extractMetricCandidates extractNum sourceMetaType field chunks ≠ []) :
    ∃ best l₁ l₂,
      (stableSort (fun a b => decide (a.authority_priority ≤ b.authority_priority))
        (extractMetricCandidates extractNum sourceMetaType field chunks)).head? =
          some best ∧
      extractMetricCandidates extractNum sourceMetaType field chunks = l₁ ++ best :: l₂ ∧
      (∀ c ∈ extractMetricCandidates extractNum sourceMetaType field chunks,
        best.authority_priority ≤ c.authority_priority) ∧
      (∀ c ∈ l₁, best.authority_priority < c.authority_priority) ∧
      ((∃ c ∈ extractMetricCandidates extractNum sourceMetaType field chunks,
        c.source_type = "sid_pdf") → best.source_type = "sid_pdf") ∧
      ((¬ ∃ c ∈ extractMetricCandidates extractNum sourceMetaType field chunks,
          c.source_type = "sid_pdf") →
        (∃ c ∈ extractMetricCandidates extractNum sourceMetaType field chunks,
          c.source_type = "kim_pdf") → best.source_type = "kim_pdf") ∧
      ((∃ c ∈ extractMetricCandidates extractNum sourceMetaType field chunks,
          c.source_type = "sid_pdf" ∨ c.source_type = "kim_pdf") →
        best.source_type ≠ "factsheet_consolidated") := by
  obtain ⟨best, l₁, l₂, hdec, hhead, hmin, hfront⟩ :=
    stableSort_head_firstMin (fun c : MCandidate => c.authority_priority) _ hne
  have hprio := extractMetricCandidates_priority extractNum sourceMetaType field chunks
  have hbestmem : best ∈ extractMetricCandidates extractNum sourceMetaType field chunks := by
    rw [hdec]
    exact List.mem_append_right _ (List.mem_cons_self _ _)
  have hbestprio : best.authority_priority = getSourceAuthorityPriority best.source_type :=
    hprio best hbestmem
  refine ⟨best, l₁, l₂, hhead, hdec, hmin, hfront, ?_, ?_, ?_⟩
  · rintro ⟨c, hc, hcs⟩
    have h1 : best.authority_priority ≤ 1 := by
      have := hmin c hc
      rw [hprio c hc, hcs] at this
      exact this
    have h2 : 1 ≤ best.authority_priority := by
      rw [hbestprio]
      exact getSourceAuthorityPriority_pos _
    have : getSourceAuthorityPriority best.source_type = 1 := by omega
    exact (getSourceAuthorityPriority_eq_one_iff _).mp this
  · rintro hnos ⟨c, hc, hcs⟩
    have h1 : best.authority_priority ≤ 2 := by
      have := hmin c hc
      rw [hprio c hc, hcs] at this
      exact this
    have hbs : best.source_type ≠ "sid_pdf" := fun hcon => hnos ⟨best, hbestmem, hcon⟩
    have h2 : 2 ≤ best.authority_priority := by
      have hp1 := getSourceAuthorityPriority_pos best.source_type
      have hne1 : getSourceAuthorityPriority best.source_type ≠ 1 :=
        fun hcon => hbs ((getSourceAuthorityPriority_eq_one_iff _).mp hcon)
      omega
    have : getSourceAuthorityPriority best.source_type = 2 := by omega
    exact (getSourceAuthorityPriority_eq_two_iff _).mp this
  · rintro ⟨c, hc, hcs⟩ hcon
    have hle : best.authority_priority ≤ 2 := by
      have := hmin c hc
      rw [hprio c hc] at this
      rcases hcs with h | h <;> rw [h] at this <;>
        simp [getSourceAuthorityPriority] at this <;> omega
    rw [hbestprio, hcon] at hle
    simp [getSourceAuthorityPriority] at hle

/-- Witness for C3: with sid_pdf, kim_pdf and factsheet_consolidated all
providing a candidate, the selection picks the sid_pdf candidate. -/
theorem c3_witness :
    ((stableSort (fun a b => decide (a.authority_priority ≤ b.authority_priority))
      (extractMetricCandidates exNumC3 (fun _ => none) "exit_load" chunksC3)).head?).map
        (fun best => best.source_type) = some "sid_pdf" := by
  obtain ⟨best, l₁, l₂, hhead, _, _, _, hsid, _, _⟩ :=
    c3_authority_selection exNumC3 (fun _ => none) "exit_load" chunksC3 (by decide)
  rw [hhead, Option.map_some']
  rw [hsid (by decide)]

/-- C4 counterexample: the direct field-chunk lookup of
`_extract_metric_strict` assigns MEDIUM — not LOW — to a result whose source
type (`web_page`) is none of sid_pdf, kim_pdf, factsheet_consolidated,
scheme_overview, contradicting the claim that unknown source types yield
LOW. -/
theorem c4_counterexample :
    (extractMetricStrict oraclesC4 [] "what is the exit load" [chunkC4] none).map
      (fun r => (r.confidence, r.source_type)) = some ("MEDIUM", "web_page") ∧
    ("web_page" = "sid_pdf" ∨ "web_page" = "kim_pdf" ∨
      "web_page" = "factsheet_consolidated" ∨ "web_page" = "scheme_overview") = False := by
  constructor
  · decide
  · simp

/-- C4 (amended): the confidence computed by `_calculate_confidence` — used
by the regex-fallback path of the strict metric extractor — is HIGH exactly
for sid_pdf/kim_pdf with a numeric match, MEDIUM exactly for
factsheet_consolidated/scheme_overview with a numeric match, and LOW
otherwise (no numeric match or unknown source type), and is monotone in the
ordering sid_pdf ≥ kim_pdf ≥ factsheet_consolidated ≥ scheme_overview; the
direct field-chunk lookup path instead assigns MEDIUM to any source type that
is not sid/kim (including unknown ones). -/
theorem c4_confidence_rules :
    (∀ (st : String) (nm norm : Bool),
      (calculateConfidence st nm norm = "HIGH" ↔
        nm = true ∧ (st = "sid_pdf" ∨ st = "kim_pdf")) ∧
      (calculateConfidence st nm norm = "MEDIUM" ↔
        nm = true ∧ (st = "factsheet_consolidated" ∨ st = "scheme_overview")) ∧
      (calculateConfidence st nm norm = "LOW" ↔
        nm = false ∨ (st ≠ "sid_pdf" ∧ st ≠ "kim_pdf" ∧
          st ≠ "factsheet_consolidated" ∧ st ≠ "scheme_overview"))) ∧
    (∀ nm norm : Bool,
      confidenceRank (calculateConfidence "kim_pdf" nm norm) ≤
        confidenceRank (calculateConfidence "sid_pdf" nm norm) ∧
      confidenceRank (calculateConfidence "factsheet_consolidated" nm norm) ≤
        confidenceRank (calculateConfidence "kim_pdf" nm norm) ∧
      confidenceRank (calculateConfidence "scheme_overview" nm norm) ≤
        confidenceRank (calculateConfidence "factsheet_consolidated" nm norm)) := by
  constructor
  · intro st nm norm
    cases nm with
    | false =>
        refine ⟨?_, ?_, ?_⟩ <;> simp [calculateConfidence]
    | true =>
        by_cases h1 : st = "sid_pdf"
        · refine ⟨?_, ?_, ?_⟩ <;> simp [calculateConfidence, h1]
        · by_cases h2 : st = "kim_pdf"
          · refine ⟨?_, ?_, ?_⟩ <;> simp [calculateConfidence, h1, h2]
          · by_cases h3 : st = "factsheet_consolidated"
            · refine ⟨?_, ?_, ?_⟩ <;> simp [calculateConfidence, h1, h2, h3]
            · by_cases h4 : st = "scheme_overview"
              · refine ⟨?_, ?_, ?_⟩ <;> simp [calculateConfidence, h1, h2, h3, h4]
              · refine ⟨?_, ?_, ?_⟩ <;> simp [calculateConfidence, h1, h2, h3, h4]
  · intro nm norm
    cases nm <;> cases norm <;> refine ⟨?_, ?_, ?_⟩ <;> decide

theorem shouldExtractField_expense (st : String) :
    shouldExtractField "expense_ratio" st = true ↔
      (st = "factsheet_consolidated" ∨ st = "regulatory") := by
  rw [shouldExtractField,
    show getFieldSourcePriority "expense_ratio" = ["factsheet_consolidated", "regulatory"]
      from by decide]
  simp [List.contains]

/-- C5: every fact row produced by the offline extraction pipeline has
lock_in exactly `3 years` when the scheme tag is ELSS — regardless of the
per-field extraction oracles and of the text — and null otherwise; moreover
extract_lock_in itself can only ever produce `3 years` or nothing, so a
mismatching extracted value cannot survive. -/
theorem c5_lock_in_statutory :
    (∀ (ex : CCExtractors) (source_type scheme_tag text : String),
      (processFacts ex source_type scheme_tag text).lock_in =
        if scheme_tag = "ELSS" then some "3 years" else none) ∧
    (∀ (lockInYears : String → List Nat) (text scheme_tag : String),
      extractLockIn lockInYears text scheme_tag = none ∨
      extractLockIn lockInYears text scheme_tag = some "3 years") := by
  constructor
  · intro ex source_type scheme_tag text
    rfl
  · intro lockInYears text scheme_tag
    rw [extractLockIn]
    split_ifs <;> simp

/-- C6: the expense_ratio fact of a produced row, and the output of
extract_expense_ratio, are null whenever the source type is neither
factsheet_consolidated nor regulatory, and no produced chunk of such a source
carries the expense_ratio field. -/
theorem c6_expense_ratio_allowlist (ex : CCExtractors) (pct : String → Option String)
    (source_type scheme_tag text : String)
    (h : source_type ≠ "factsheet_consolidated" ∧ source_type ≠ "regulatory") :
    extractExpenseRatio pct text source_type = none ∧
    (processFacts ex source_type scheme_tag text).expense_ratio = none ∧
    (∀ source_id source_url authority last_fetched : String,
      ∀ c ∈ processChunks ex source_id source_url authority source_type scheme_tag
        last_fetched text, c.field ≠ "expense_ratio") := by
  have hguard : ∀ p : String → Option String,
      extractExpenseRatio p text source_type = none := by
    intro p
    rw [extractExpenseRatio, if_pos]
    rintro (hc | hc)
    · exact h.1 hc
    · exact h.2 hc
  have hfact : (processFacts ex source_type scheme_tag text).expense_ratio = none := by
    show (if shouldExtractField "expense_ratio" source_type then
      extractExpenseRatio ex.expensePct text source_type else none) = none
    split_ifs with hs
    · exact hguard ex.expensePct
    · rfl
  refine ⟨hguard pct, hfact, ?_⟩
  intro source_id source_url authority last_fetched c hc
  simp only [processChunks, List.mem_filterMap] at hc
  obtain ⟨t, ht, hsome⟩ := hc
  simp only [List.mem_cons, List.not_mem_nil, or_false] at ht
  rcases ht with rfl | rfl | rfl | rfl | rfl | rfl | rfl
  all_goals
    first
    | (rw [hfact] at hsome; exact absurd hsome (by simp))
    | (obtain ⟨v, _, rfl⟩ := Option.map_eq_some'.mp hsome; simp)

/-- Witness for C6: a sid_pdf source with a would-be extracted value is
blocked by the allow-list. -/
theorem c6_witness :
    extractExpenseRatio (fun _ => some "1.00%") "TER: 1.00%" "sid_pdf" = none ∧
    (processFacts
      ⟨fun _ => some "₹100", fun _ => some "₹5000", fun _ => some "1.00%",
        fun _ => [3], fun _ => some "1.00%", fun _ => some "NIFTY 100",
        fun _ => some "Very High"⟩
      "sid_pdf" "ELSS" "TER: 1.00%").expense_ratio = none := by
  have h := c6_expense_ratio_allowlist
    ⟨fun _ => some "₹100", fun _ => some "₹5000", fun _ => some "1.00%",
      fun _ => [3], fun _ => some "1.00%", fun _ => some "NIFTY 100",
      fun _ => some "Very High"⟩
    (fun _ => some "1.00%") "sid_pdf" "ELSS" "TER: 1.00%" (by decide)
  exact ⟨h.1, h.2.1⟩

/-- The head of the descending stable sort is an element of maximal key. -/
theorem stableSort_head_max {α : Type} (key : α → ℚ) (l : List α) (hl : l ≠ []) :
    ∃ b rest, stableSort (fun a c => decide (key c ≤ key a)) l = b :: rest ∧
      b ∈ l ∧ ∀ a ∈ l, key a ≤ key b := by
  induction l with
  | nil => exact absurd rfl hl
  | cons x xs ih =>
      cases xs with
      | nil =>
          refine ⟨x, [], rfl, List.mem_singleton_self x, ?_⟩
          intro a ha
          rw [List.mem_singleton] at ha
          exact ha ▸ le_refl _
      | cons y ys =>
          obtain ⟨b, rest, hshape, hbmem, hmax⟩ := ih (by simp)
          by_cases hle : key b ≤ key x
          · refine ⟨x, b :: rest, ?_, List.mem_cons_self _ _, ?_⟩
            · rw [stableSort, hshape, insertBefore, if_pos (by simpa using hle)]
            · intro a ha
              rcases List.mem_cons.mp ha with h | h
              · exact h ▸ le_refl _
              · exact le_trans (hmax a h) hle
          · refine ⟨b, insertBefore (fun a c => decide (key c ≤ key a)) x rest, ?_,
              List.mem_cons_of_mem _ hbmem, ?_⟩
            · rw [stableSort, hshape, insertBefore, if_neg (by simpa using hle)]
            · intro a ha
              rcases List.mem_cons.mp ha with h | h
              · exact h ▸ le_of_lt (lt_of_not_le hle)
              · exact hmax a h

theorem valuesConflict_some (v1 v2 : ℚ) (f : String)
    (h : valuesConflict (some v1) (some v2) f 0.01 = true) :
    ((f = "expense_ratio" ∨ f = "exit_load") → (0.01 : ℚ) < |v1 - v2|) ∧
    ((f = "minimum_sip" ∨ f = "min_lumpsum") → (10 : ℚ) < |v1 - v2|) ∧
    (f = "lock_in" → v1 ≠ v2) := by
  simp only [valuesConflict] at h
  refine ⟨?_, ?_, ?_⟩
  · intro hf
    rw [if_pos hf] at h
    exact of_decide_eq_true h
  · intro hf
    have hn1 : ¬(f = "expense_ratio" ∨ f = "exit_load") := by
      rcases hf with h1 | h1 <;> subst h1 <;> decide
    rw [if_neg hn1, if_pos hf] at h
    exact of_decide_eq_true h
  · intro hf
    subst hf
    rw [if_neg (by decide), if_neg (by decide), if_pos rfl] at h
    exact of_decide_eq_true h

theorem conflictsForGroup_eraseTime (rows : List FactRow) (scheme f t1 t2 : String) :
    (conflictsForGroup rows scheme f t1).map eraseTime =
      (conflictsForGroup rows scheme f t2).map eraseTime := by
  rw [conflictsForGroup, conflictsForGroup]
  split_ifs with h1 h2
  · rfl
  · cases hsort : stableSort (fun a b => decide (b.priority ≤ a.priority))
        (normalizedEntries rows scheme f) with
    | nil => rfl
    | cons top rest =>
        rw [List.map_filterMap, List.map_filterMap]
        congr 1
        funext oth
        by_cases hc :
            valuesConflict (some top.normalized) (some oth.normalized) f 0.01 = true
        · rw [if_pos hc, if_pos hc]
          rfl
        · rw [if_neg hc, if_neg hc]
  · rfl

/-! ### Claims C7 and C8 -/
/-- C7: every emitted ConflictRecord comes from a (scheme, field) group with
at least two parseable values; the authoritative side is a value of maximal
source priority; and the two normalized values differ beyond the
field-specific tolerance (0.01 for the percentage fields, 10 rupees for the
currency fields, any inequality for lock-in).  Conversely, a record is
emitted for every non-top parseable value that conflicts with the top value
of its group. -/
theorem c7_conflict_rules :
    (∀ (rows : List FactRow) (now : String) (r : ConflictRecord),
      r ∈ detectConflicts rows now →
      ∃ top oth : NormEntry,
        top ∈ normalizedEntries rows r.scheme_tag r.field ∧
        oth ∈ normalizedEntries rows r.scheme_tag r.field ∧
        2 ≤ (normalizedEntries rows r.scheme_tag r.field).length ∧
        r.authoritative_source = top.source_id ∧
        r.authoritative_value = top.value ∧
        r.conflicting_source = oth.source_id ∧
        r.conflicting_value = oth.value ∧
        (∀ e ∈ normalizedEntries rows r.scheme_tag r.field, e.priority ≤ top.priority) ∧
        valuesConflict (some top.normalized) (some oth.normalized) r.field 0.01 = true ∧
        ((r.field = "expense_ratio" ∨ r.field = "exit_load") →
          (0.01 : ℚ) < |top.normalized - oth.normalized|) ∧
        ((r.field = "minimum_sip" ∨ r.field = "min_lumpsum") →
          (10 : ℚ) < |top.normalized - oth.normalized|) ∧
        (r.field = "lock_in" → top.normalized ≠ oth.normalized)) ∧
    (∀ (rows : List FactRow) (now scheme f : String) (top : NormEntry)
        (rest : List NormEntry),
      scheme ∈ schemeOrder rows → f ∈ fieldOrder rows scheme →
      ¬(groupEntries rows scheme f).length < 2 →
      stableSort (fun a b => decide (b.priority ≤ a.priority))
        (normalizedEntries rows scheme f) = top :: rest →
      ∀ oth ∈ rest,
        valuesConflict (some top.normalized) (some oth.normalized) f 0.01 = true →
        mkConflictRecord scheme f top oth now ∈ detectConflicts rows now) := by
  constructor
  · intro rows now r hr
    simp only [detectConflicts, List.mem_flatMap] at hr
    obtain ⟨scheme, hscheme, f, hford, hrg⟩ := hr
    rw [conflictsForGroup] at hrg
    split_ifs at hrg with h1 h2
    · simp at hrg
    · cases hsort : stableSort (fun a b => decide (b.priority ≤ a.priority))
          (normalizedEntries rows scheme f) with
      | nil => rw [hsort] at hrg; simp at hrg
      | cons top rest =>
          rw [hsort] at hrg
          simp only [List.mem_filterMap] at hrg
          obtain ⟨oth, hoth, hif⟩ := hrg
          by_cases hc :
              valuesConflict (some top.normalized) (some oth.normalized) f 0.01 = true
          · rw [if_pos hc, Option.some_inj] at hif
            have hmem_sorted : ∀ x, x ∈ top :: rest →
                x ∈ normalizedEntries rows scheme f := by
              intro x hx
              rw [← hsort] at hx
              exact (mem_stableSort _ _ _).mp hx
            have hne : normalizedEntries rows scheme f ≠ [] := by
              intro hnil
              rw [hnil] at h2
              simp at h2
            obtain ⟨b, rest2, hshape2, _, hmax⟩ :=
              stableSort_head_max (fun e : NormEntry => e.priority)
                (normalizedEntries rows scheme f) hne
            have hbtop : b = top := by
              have := hshape2.symm.trans hsort
              exact (List.cons.injEq _ _ _ _ ▸ this).1
            obtain ⟨ht1, ht2, ht3⟩ := valuesConflict_some top.normalized oth.normalized f hc
            rw [← hif]
            exact ⟨top, oth, hmem_sorted top (List.mem_cons_self _ _),
              hmem_sorted oth (List.mem_cons_of_mem _ hoth), h2, rfl, rfl, rfl, rfl,
              (fun e he => hbtop ▸ hmax e he), hc, ht1, ht2, ht3⟩
          · rw [if_neg hc] at hif
            exact absurd hif (by simp)
    · simp at hrg
  · intro rows now scheme f top rest hscheme hford hlen hsort oth hoth hconf
    have h2 : 2 ≤ (normalizedEntries rows scheme f).length := by
      have hlen_eq : (normalizedEntries rows scheme f).length = (top :: rest).length := by
        rw [← hsort]
        exact ((stableSort_perm _ _).length_eq).symm
      have hpos : 0 < rest.length := List.length_pos.mpr (List.ne_nil_of_mem hoth)
      rw [hlen_eq, List.length_cons]
      omega
    simp only [detectConflicts, List.mem_flatMap]
    refine ⟨scheme, hscheme, f, hford, ?_⟩
    rw [conflictsForGroup, if_neg hlen, if_pos h2, hsort]
    simp only [List.mem_filterMap]
    exact ⟨oth, hoth, by rw [if_pos hconf]⟩

/-- Witness for C7: a two-source exit-load disagreement (1.00% from a sid
source against 2.50% from an overview source) emits the corresponding
record. -/
theorem c7_witness :
    mkConflictRecord "ELSS" "exit_load" topC7 othC7 "2025-01-01T00:00:00" ∈
      detectConflicts rowsC7 "2025-01-01T00:00:00" := by
  apply c7_conflict_rules.2 rowsC7 "2025-01-01T00:00:00" "ELSS" "exit_load" topC7 [othC7]
    (by decide) (by decide) (by decide) (by with_unfolding_all decide) othC7
    (List.mem_singleton_self othC7) (by with_unfolding_all decide)

/-- C8 counterexample: the same fact table run at two different wall-clock
instants (as two consecutive runs would be) produces record lists that
disagree — on the detected_at field — even though a conflict is found both
times. -/
theorem c8_counterexample :
    (detectConflicts rowsC8 "2025-01-01T00:00:00").length = 1 ∧
    detectConflicts rowsC8 "2025-01-01T00:00:00" ≠
      detectConflicts rowsC8 "2025-01-01T00:00:01" := by
  with_unfolding_all decide

/-- C8 (amended): detect_conflicts is deterministic up to the detected_at
wall-clock field: two runs on the same fact table produce record lists that
agree on every record and every field except detected_at, which carries each
run's own timestamp. -/
theorem c8_deterministic_up_to_timestamp :
    ∀ (rows : List FactRow) (t1 t2 : String),
      (detectConflicts rows t1).map eraseTime =
        (detectConflicts rows t2).map eraseTime := by
  intro rows t1 t2
  simp only [detectConflicts, List.map_flatMap]
  congr 1
  funext scheme
  congr 1
  funext f
  exact conflictsForGroup_eraseTime rows scheme f t1 t2

end MFC
